import Mathlib

/-!
A shallow embedding of the aoyud assembly front-end (Go) in Lean 4, together
with theorems checking the natural-language specification against it.

Modelling conventions, used throughout:
* Go `int64` values are modelled as `Int`, with two's-complement wraparound
  applied explicitly (`wrap64`) wherever a Go operation can overflow.
* Go `/` and `%` on integers truncate towards zero; they are modelled by
  `Int.tdiv` and `Int.tmod`.  Go's arithmetic right shift is a floor division.
* Go strings are byte strings; expression text is ASCII here, so they are
  modelled as `List Char` (with `Char.toNat < 256` hypotheses where a theorem
  ranges over arbitrary byte strings).
* Go maps used as symbol tables are modelled as association lists updated
  in place; Go's zero-value-on-missing-key semantics is made explicit.
* Functions returning `(result, *ErrorList)` become Lean functions returning
  a pair of the result and a `List GoError`.
-/

/-- Two's-complement wraparound of Go `int64` arithmetic: the representative of
`x` in `[-2^63, 2^63)`. -/
def wrap64 (x : Int) : Int :=
  (x + 2 ^ 63).emod (2 ^ 64) - 2 ^ 63

/-- Go `uint64(x)` conversion of an `int64` value. -/
def toUint64 (x : Int) : Nat :=
  (x.emod (2 ^ 64)).toNat

/-- Severity levels of the error list (`ErrorSeverity` in the source:
None < Debug < Warning < Error < Fatal). -/
inductive ErrorSeverity where
  | ESNone
  | ESDebug
  | ESWarning
  | ESError
  | ESFatal
deriving DecidableEq, Repr

open ErrorSeverity

def ErrorSeverity.toNat : ErrorSeverity → Nat
  | ESNone => 0
  | ESDebug => 1
  | ESWarning => 2
  | ESError => 3
  | ESFatal => 4

instance : LE ErrorSeverity := ⟨fun a b => a.toNat ≤ b.toNat⟩
instance : LT ErrorSeverity := ⟨fun a b => a.toNat < b.toNat⟩
instance (a b : ErrorSeverity) : Decidable (a ≤ b) := by
  unfold LE.le instLEErrorSeverity; exact inferInstance
instance (a b : ErrorSeverity) : Decidable (a < b) := by
  unfold LT.lt instLTErrorSeverity; exact inferInstance

/-- One entry of an `ErrorList`: message and severity (positions dropped, they
carry no semantics checked here). -/
structure GoError where
  s : String
  sev : ErrorSeverity
deriving DecidableEq, Repr

/-- `ErrorList` from the source, as a plain list (a `nil` Go pointer is `[]`). -/
abbrev GoErrorList := List GoError

/-- `ErrorList.Severity`: the maximum severity of the list (ESNone if empty). -/
def GoErrorList.severity (e : GoErrorList) : ErrorSeverity :=
  e.foldl (fun acc err => if acc ≤ err.sev then err.sev else acc) ESNone

/-- `ErrorList.AddL`: append another error list. -/
def GoErrorList.addL (e err : GoErrorList) : GoErrorList := e ++ err

/-- `ErrorList.AddF`: append one formatted error. -/
def GoErrorList.addF (e : GoErrorList) (sev : ErrorSeverity) (msg : String) :
    GoErrorList :=
  e ++ [⟨msg, sev⟩]

/-- `ErrorListF`: a one-element error list. -/
def ErrorListF (sev : ErrorSeverity) (msg : String) : GoErrorList :=
  [⟨msg, sev⟩]

/-- `asmInt` (part_000): an integer constant with an output base and an
optional pointer width (`ptr` is a Go `uint64`, `n` a Go `int64`). -/
structure asmInt where
  n : Int
  ptr : Nat := 0
  base : Int := 0
deriving DecidableEq, Repr

/-- `asmInt.width` (part_000 lines 43-56), byte for byte:
negate a negative value (with int64 wraparound, as in Go), then compare
against `0xFF`, `0xFFFF`, `0xFFFFFFFF` with strict `<`. -/
def asmInt.width (v : asmInt) : Nat :=
  let n := if v.n < 0 then wrap64 (-v.n) else v.n
  if n < 0xFF then 1
  else if n < 0xFFFF then 2
  else if n < 0xFFFFFFFF then 4
  else 8

/-- The width the specification asks for: the smallest of {1,2,4,8} whose byte
range holds `|value|` (spec-side definition, for comparison with
`asmInt.width`). -/
def specWidth (v : Int) : Nat :=
  if v.natAbs ≤ 0xFF then 1
  else if v.natAbs ≤ 0xFFFF then 2
  else if v.natAbs ≤ 0xFFFFFFFF then 4
  else 8

/-- `maxbytes` (asm_string.go). -/
def maxbytes : Nat := 8

/-- `asmString`: a raw byte string; modelled as a list of characters whose
code points are the byte values. -/
abbrev asmStr := List Char

/-- `asmString.toInt` (asm_string.go lines 23-34): big-endian base-256 packing
into an int64, base 256; error if longer than 8 bytes.  The Go loop ORs
disjoint shifted byte ranges into an int64; that is the two's-complement
wraparound of the plain base-256 value. -/
def asmStr.toInt (v : asmStr) : asmInt × GoErrorList :=
  if v.length > maxbytes then
    ({ n := 0, base := 256 },
     ErrorListF ESError ("string constant larger than 8 bytes"))
  else
    ({ n := wrap64 (((List.range v.length).foldl
        (fun (acc : Nat) i =>
          acc + (v.getD (v.length - 1 - i) (Char.ofNat 0)).toNat * 2 ^ (i * 8))
        0 : Nat) : Int),
       base := 256 }, [])

/-- One step of `formatASCII`'s loop body: `byte(rest & 0xFF)` is
`rest.emod 256`; `rest >>= 8` is the arithmetic shift `rest.fdiv 256`. -/
def formatByte (rest : Int) (i : Nat) : Char :=
  Char.ofNat ((rest.fdiv ((2 : Int) ^ (i * 8))).emod 256).toNat

/-- `asmInt.formatASCII` (asm_string.go lines 36-44): write the 8 bytes of `n`
big-endian, then strip leading NUL bytes (`strings.TrimLeft(_, "\x00")`). -/
def asmInt.formatASCII (v : asmInt) : asmStr :=
  (((List.range maxbytes).map fun i => formatByte v.n (maxbytes - 1 - i))).dropWhile
    (fun c => c = Char.ofNat 0)

/-! ## Lex stream (lex_stream.go) -/

/-- The `eof` sentinel byte. -/
def eofChar : Char := Char.ofNat 0

/-- `charGroup`: a set of delimiter bytes. -/
abbrev charGroup := List Char

/-- `charGroup.matches`. -/
def charGroup.matchesC (g : charGroup) (b : Char) : Bool :=
  g.any (fun v => v = b)

def whitespace : charGroup := [' ', '\t']
def linebreak : charGroup := ['\r', '\n']
def quotes : charGroup := ['\'', '"']
def paramDelim : charGroup := [',', ';'] ++ linebreak
def wordDelim : charGroup := [':'] ++ whitespace ++ paramDelim
def shuntDelim : charGroup :=
  ['+', '-', '*', '/', '|', '(', ')', '[', ']', '<', '>', ':', '&', '"', '\''] ++
  whitespace

/-- `lexStream`: a cursor (`c`) into an immutable text buffer, with line
tracking. -/
structure lexStream where
  input : List Char
  c : Nat
  line : Nat
deriving Repr

def newLexStream (input : String) : lexStream :=
  { input := input.data, c := 0, line := 1 }

/-- `lexStream.peek`: the byte at the cursor, or `eof` past the end. -/
def lexStream.peek (s : lexStream) : Char :=
  s.input.getD s.c eofChar

/-- `lexStream.next`: consume one byte (counting lines). -/
def lexStream.next (s : lexStream) : Char × lexStream :=
  (s.peek,
   { s with
     c := s.c + 1
     line := if s.peek = '\n' then s.line + 1 else s.line })

/-- The loop of `lexStream.ignore`, structurally recursive on the number of
bytes left in the buffer (each iteration consumes one byte; once the cursor
passes the end, `peek` is the NUL sentinel, which no delimiter group
contains, so the Go loop stops there too). -/
def ignoreGo (g : charGroup) : Nat → lexStream → lexStream
  | 0, s => s
  | fuel + 1, s => if g.matchesC s.peek then ignoreGo g fuel (s.next).2 else s

/-- `lexStream.ignore`: consume bytes while they match the group. -/
def lexStream.ignore (g : charGroup) (s : lexStream) : lexStream :=
  ignoreGo g (s.input.length - s.c) s

/-- The loop of `lexStream.nextUntil`: consume and collect bytes until one
matches the delimiter group or `eof` is reached (same bounded-recursion shape
as `ignoreGo`; the collected bytes are exactly `input[start:c]`). -/
def collectGo (delim : charGroup) : Nat → lexStream → List Char × lexStream
  | 0, s => ([], s)
  | fuel + 1, s =>
    if ¬ delim.matchesC s.peek ∧ s.peek ≠ eofChar then
      let rest := collectGo delim fuel (s.next).2
      (s.peek :: rest.1, rest.2)
    else ([], s)

/-- `lexStream.nextUntil`: skip whitespace, then consume the next word
delimited by `delim`. -/
def lexStream.nextUntil (delim : charGroup) (s : lexStream) :
    List Char × lexStream :=
  let s1 := s.ignore whitespace
  collectGo delim (s1.input.length - s1.c) s1

/-- `lexStream.nextToken`: like `nextUntil`, but consumes one extra byte when
the word would be empty. -/
def lexStream.nextToken (delim : charGroup) (s : lexStream) :
    List Char × lexStream :=
  let r := s.nextUntil delim
  if r.1.isEmpty then
    let n := r.2.next
    ([n.1], n.2)
  else r

/-- `lexStream.nextAssert`: consume one byte; warn if it is not `b`. -/
def lexStream.nextAssert (b : Char) (prev : List Char) (s : lexStream) :
    lexStream × GoErrorList :=
  let n := s.next
  if n.1 = b then (n.2, [])
  else (n.2, ErrorListF ESWarning ("missing a closing " ++ String.mk [b] ++ ": "
    ++ String.mk prev))

/-! ## Values, symbols and the parser state (part_000) -/

/-- `strings.ToUpper`, restricted to the ASCII range (symbol names and
directives in the checked claims are ASCII). -/
def goToUpper (s : String) : String := String.mk (s.data.map Char.toUpper)

/-- `strings.TrimSpace` (ASCII space classes). -/
def goIsSpace (c : Char) : Bool :=
  c = ' ' ∨ c = '\t' ∨ c = '\n' ∨ c = '\r' ∨ c = Char.ofNat 11 ∨ c = Char.ofNat 12
def goTrimSpace (s : String) : String :=
  String.mk (((s.data.dropWhile goIsSpace).reverse.dropWhile goIsSpace).reverse)

/-- `asmMacroArg` (part_000): a macro argument with name, type and default. -/
structure asmMacroArg where
  name : String
  typ : String
  def' : String
deriving DecidableEq, Repr

/-- `item` (aoyud.go): one parsed logical line.  Position chains carry no
semantics proved here and are dropped. -/
structure item where
  typ : Nat
  sym : String
  val : String
  params : List String
deriving DecidableEq, Repr

/-- `asmMacro` (part_000). -/
structure asmMacro where
  args : List asmMacroArg
  code : List item
  locals : List String
deriving DecidableEq, Repr

/-- The polymorphic assembly value (`asmVal` in part_000).  Only the variants
exercised by the claims are modelled; segments, structures and data pointers
are treated separately where a claim needs them. -/
inductive asmVal where
  | aInt (v : asmInt)
  | aExpr (e : String)
  | aMacro (m : asmMacro)
deriving DecidableEq, Repr

/-- `asmVal.Thing`: the noun describing each kind of value. -/
def asmVal.thingNoun : asmVal → String
  | .aInt _ => "integer constant"
  | .aExpr _ => "arithmetic expression"
  | .aMacro _ => "multiline macro"

/-- `symbol` (part_000): a symbol-table entry. -/
structure symbol where
  constant : Bool
  val : asmVal
deriving DecidableEq, Repr

/-- `symMap` (part_000): a Go map from name to symbol, as an association
list (assignment replaces in place, or appends a new binding). -/
abbrev symMap := List (String × symbol)

def symMap.find (m : symMap) (name : String) : Option symbol :=
  match m with
  | [] => none
  | (k, v) :: rest => if k = name then some v else symMap.find rest name

def symMap.assign (m : symMap) (name : String) (v : symbol) : symMap :=
  match m with
  | [] => [(name, v)]
  | (k, old) :: rest =>
    if k = name then (k, v) :: rest else (k, old) :: symMap.assign rest name v

/-- The parser state (part_000 lines 383-400); only the fields the claims
touch (instruction list, nesting bookkeeping for proc/macro/segment and the
emission targets live in the separate claim-specific models). -/
structure parser where
  syntax' : String
  syms : symMap
  symCase : Bool
  macroLocalCount : Nat
  ifNest : Int
  ifMatch : Int
  ifElse : Bool
deriving Repr

/-- A fresh parser as `p.eval` initialises it: zero-valued fields (in
particular `symCase = false`, i.e. case-insensitive). -/
def parser.init (syn : String) : parser :=
  { syntax' := syn, syms := [], symCase := false, macroLocalCount := 0,
    ifNest := 0, ifMatch := 0, ifElse := false }

/-- `parser.toSymCase` (part_000 lines 402-407): upper-case the name unless
case sensitivity was switched on. -/
def parser.toSymCase (p : parser) (s : String) : String :=
  if ¬ p.symCase then goToUpper s else s

/-- `splitColon` (part_000 lines 409-417): split at the first `:`,
trimming both halves. -/
def splitColon (s : String) : String × String :=
  let key := s.data.takeWhile (fun c => c ≠ ':')
  let rest := s.data.dropWhile (fun c => c ≠ ':')
  (goTrimSpace (String.mk key),
   if rest.isEmpty then "" else goTrimSpace (String.mk (rest.drop 1)))

/-- `parser.getSym` (part_000 lines 923-931). -/
def parser.getSym (p : parser) (name : String) : Option asmVal × GoErrorList :=
  let realName := p.toSymCase name
  match p.syms.find realName with
  | some ret => (some ret.val, [])
  | none => (none, ErrorListF ESError ("unknown symbol " ++ realName))

/-- `parser.setSym` (part_000 lines 933-944): redefinition of a symbol whose
existing entry is flagged constant fails; a missing key reads as the
zero-valued symbol (`constant = false`), exactly as a Go map does. -/
def parser.setSym (p : parser) (name : String) (val : asmVal) (constant : Bool) :
    parser × GoErrorList :=
  let realName := p.toSymCase name
  let existingConstant := match p.syms.find realName with
    | some s => s.constant
    | none => false
  if existingConstant then
    (p, ErrorListF ESError
      ("constant symbol " ++ realName ++ " already defined elsewhere"))
  else
    ({ p with syms := p.syms.assign realName ⟨constant, val⟩ }, [])

/-- The `CASEMAP` value table of `OPTION` (part_000 lines 707-728): the effect
of each recognised value on `p.symCase`. -/
def optionCasemap (val : String) : Option Bool :=
  if val = "NONE" then some true
  else if val = "NOTPUBLIC" then some false
  else if val = "ALL" then some false
  else none

/-- `OPTION` (part_000 lines 707-728), restricted to its only key `CASEMAP`:
fold the parameters, updating the case policy or failing on an illegal
value. -/
def OPTION (p : parser) (params : List String) : parser × GoErrorList :=
  match params with
  | [] => (p, [])
  | param :: rest =>
    let kv := splitColon param
    let key := goToUpper kv.1
    let val := goToUpper kv.2
    if key = "CASEMAP" then
      match optionCasemap val with
      | some b => OPTION { p with symCase := b } rest
      | none => (p, ErrorListF ESError ("illegal value for OPTION " ++ key ++ ": " ++ val))
    else OPTION p rest

/-! ## Shunting-yard expression evaluation (shunt.go) -/

/-- `b2i` (shunt.go lines 107-112). -/
def b2i (b : Bool) : Int := if b then 1 else 0

/-- Two's-complement bitwise NOT of an int64 (`^x` in Go): `-x-1`. -/
def not64 (b : Int) : Int := -b - 1

/-- Int64 bitwise AND via the unsigned two's-complement bit patterns. -/
def land64 (a b : Int) : Int := wrap64 (Int.ofNat ((toUint64 a).land (toUint64 b)))
/-- Int64 bitwise OR via the unsigned two's-complement bit patterns. -/
def lor64 (a b : Int) : Int := wrap64 (Int.ofNat ((toUint64 a).lor (toUint64 b)))
/-- Int64 bitwise XOR via the unsigned two's-complement bit patterns. -/
def lxor64 (a b : Int) : Int := wrap64 (Int.ofNat ((toUint64 a).xor (toUint64 b)))

/-- Go `>>` on an int64 by an unsigned count: arithmetic shift, i.e. floor
division (counts ≥ 63 saturate to all-sign-bits, matching Go at `s >= 64`). -/
def goShr (a : Int) (s : Nat) : Int := a.fdiv (2 ^ (min s 63))

/-- Go `<<` on an int64 by an unsigned count: multiply and wrap (counts ≥ 64
produce 0, which `wrap64 (a * 2^64) = 0 (mod 2^64)` reproduces). -/
def goShl (a : Int) (s : Nat) : Int := wrap64 (a * 2 ^ (min s 64))

/-- `shuntOp` (shunt.go lines 50-57).  `function` takes `(a, b)` and returns
the updated `a` (in Go it mutates `a` in place). -/
structure shuntOp where
  id : String
  precedence : Int
  args : Nat
  function : asmInt → asmInt → asmInt

/-- `asmTypes` (shunt.go lines 114-122). -/
def asmTypes (s : String) : Option asmInt :=
  if s = "BYTE" then some { n := 1 }
  else if s = "WORD" then some { n := 2 }
  else if s = "DWORD" then some { n := 4 }
  else if s = "PWORD" then some { n := 6 }
  else if s = "FWORD" then some { n := 6 }
  else if s = "QWORD" then some { n := 8 }
  else if s = "TBYTE" then some { n := 10 }
  else none

/-- `unaryOperators` (shunt.go lines 124-130).  Note the Go division/`MinInt64`
negation panics are totalised (they are never reached in proved facts). -/
def unaryOperators (s : String) : Option shuntOp :=
  if s = "(" then some ⟨"(", 14, 0, fun a _ => a⟩
  else if s = ")" then some ⟨")", 14, 0, fun a _ => a⟩
  else if s = "+" then some ⟨"+", 8, 1, fun a b => { a with base := b.base }⟩
  else if s = "-" then some ⟨"-", 8, 1, fun a b =>
    { a with n := wrap64 (-b.n), base := b.base }⟩
  else if s = "NOT" then some ⟨"NOT", 4, 1, fun a b =>
    { a with n := not64 b.n, base := b.base }⟩
  else none

/-- `binaryOperators` (shunt.go lines 132-157). -/
def binaryOperators (s : String) : Option shuntOp :=
  if s = "(" then some ⟨"(", 14, 0, fun a _ => a⟩
  else if s = ")" then some ⟨")", 14, 0, fun a _ => a⟩
  else if s = "PTR" then some ⟨"PTR", 11, 2, fun a b =>
    { a with ptr := toUint64 a.n, n := b.n, base := b.base }⟩
  else if s = "*" then some ⟨"*", 7, 2, fun a b => { a with n := wrap64 (a.n * b.n) }⟩
  else if s = "/" then some ⟨"/", 7, 2, fun a b => { a with n := wrap64 (a.n.tdiv b.n) }⟩
  else if s = "MOD" then some ⟨"MOD", 7, 2, fun a b => { a with n := a.n.tmod b.n }⟩
  else if s = "SHR" then some ⟨"SHR", 7, 2, fun a b =>
    { a with n := goShr a.n (toUint64 b.n) }⟩
  else if s = "SHL" then some ⟨"SHL", 7, 2, fun a b =>
    { a with n := goShl a.n (toUint64 b.n) }⟩
  else if s = "+" then some ⟨"+", 6, 2, fun a b => { a with n := wrap64 (a.n + b.n) }⟩
  else if s = "-" then some ⟨"-", 6, 2, fun a b => { a with n := wrap64 (a.n - b.n) }⟩
  else if s = "EQ" then some ⟨"EQ", 5, 2, fun a b => { a with n := b2i (a.n = b.n) }⟩
  else if s = "NE" then some ⟨"NE", 5, 2, fun a b => { a with n := b2i (a.n ≠ b.n) }⟩
  else if s = "LT" then some ⟨"LT", 5, 2, fun a b => { a with n := b2i (a.n < b.n) }⟩
  else if s = "LE" then some ⟨"LE", 5, 2, fun a b => { a with n := b2i (a.n ≤ b.n) }⟩
  else if s = "GT" then some ⟨"GT", 5, 2, fun a b => { a with n := b2i (a.n > b.n) }⟩
  else if s = "GE" then some ⟨"GE", 5, 2, fun a b => { a with n := b2i (a.n ≥ b.n) }⟩
  else if s = "AND" then some ⟨"AND", 3, 2, fun a b => { a with n := land64 a.n b.n }⟩
  else if s = "OR" then some ⟨"OR", 2, 2, fun a b => { a with n := lor64 a.n b.n }⟩
  else if s = "|" then some ⟨"OR", 2, 2, fun a b => { a with n := lor64 a.n b.n }⟩
  else if s = "XOR" then some ⟨"XOR", 2, 2, fun a b => { a with n := lxor64 a.n b.n }⟩
  else none

/-- Which operator map is currently active (`state.opSet` in the source is a
pointer to one of the two tables). -/
inductive opSetSel where
  | unary
  | binary
deriving DecidableEq, Repr

def opSetSel.lookup : opSetSel → String → Option shuntOp
  | .unary => unaryOperators
  | .binary => binaryOperators

/-- Elements of the RPN stack (`Shuntable` values pushed by the loop). -/
inductive Shuntable where
  | sInt (v : asmInt)
  | sStr (s : asmStr)
  | sOp (op : shuntOp)

/-- `isAsmInt` (part_000 lines 89-101). -/
def isAsmInt (input : List Char) : Bool :=
  match input with
  | [] => false
  | f :: _ =>
    if (f = '+' ∨ f = '-') ∧ input.length = 1 then false
    else decide ('0' ≤ f ∧ f ≤ '9') && !(input.any (fun c => c = ' ' ∨ c = '\t'))

/-- Digit value as `strconv.ParseInt` sees it (letters in either case);
values ≥ 36 mark an invalid digit byte. -/
def digitVal (c : Char) : Nat :=
  if '0' ≤ c ∧ c ≤ '9' then c.toNat - '0'.toNat
  else if 'a' ≤ c ∧ c ≤ 'z' then c.toNat - 'a'.toNat + 10
  else if 'A' ≤ c ∧ c ≤ 'Z' then c.toNat - 'A'.toNat + 10
  else 99

/-- The digit loop of `strconv.ParseInt`: all bytes must be digits of the
base; empty digit strings are invalid. -/
def parseDigits (base : Nat) (ds : List Char) : Option Nat :=
  if ds.isEmpty ∨ ds.any (fun c => ¬ digitVal c < base) then none
  else some (ds.foldl (fun acc c => acc * base + digitVal c) 0)

/-- `strconv.ParseInt(s, base, 0)` for an explicit base: optional sign, digit
string, and the int64 range check (`bitSize 0` means 64). -/
def goParseInt (base : Nat) (s : List Char) : Option Int :=
  let signed : Bool × List Char :=
    match s with
    | '+' :: rest => (false, rest)
    | '-' :: rest => (true, rest)
    | _ => (false, s)
  match parseDigits base signed.2 with
  | none => none
  | some un =>
    if signed.1 then
      if un ≤ 2 ^ 63 then some (-(un : Int)) else none
    else
      if un ≤ 2 ^ 63 - 1 then some (un : Int) else none

/-- `newAsmInt` (part_000 lines 103-127): pick the radix from the suffix
letter, then parse. -/
def newAsmInt (input : List Char) : Option asmInt × GoErrorList :=
  let last := input.getLastD eofChar
  let base : Nat :=
    if last = 'b' then 2
    else if last = 'o' then 8
    else if last = 't' then 10
    else if last = 'h' then 16
    else 0
  let digits := if base ≠ 0 then input.dropLast else input
  let base := if base ≠ 0 then base else 10
  match goParseInt base digits with
  | some n => (some { n := n, base := (base : Int) }, [])
  | none => (none, ErrorListF ESError ("invalid integer: " ++ String.mk input))

/-- The possible results of `nextShuntToken` (`Thingy` in the source); a
symbol lookup can surface any `asmVal`, other kinds than integers, strings
and expressions carry just their noun for the error message. -/
inductive Thingy where
  | tInt (v : asmInt)
  | tStr (s : asmStr)
  | tOp (op : shuntOp)
  | tExpr (e : String)
  | tOther (noun : String)

/-- `asmVal` as a `Thingy`, as the `switch token.(type)` in `shuntLoop` sees
the result of a symbol lookup. -/
def asmVal.toThingy : asmVal → Thingy
  | .aInt v => Thingy.tInt v
  | .aExpr e => Thingy.tExpr e
  | .aMacro _ => Thingy.tOther "multiline macro"

/-- `nextShuntToken` (shunt.go lines 159-177).  `SymMap.Get` is not under
src/; following part_000's `getSym` (and the spec's case-policy-aware symbol
map), it is the case-folded lookup `parser.getSym`.  `none` means the final
lookup failed (its error carries ESError severity). -/
def nextShuntToken (p : parser) (opSet : opSetSel) (stream : lexStream) :
    Option Thingy × lexStream × GoErrorList :=
  let r := stream.nextToken shuntDelim
  let token := r.1
  let s1 := r.2
  if isAsmInt token then
    match newAsmInt token with
    | (some v, err) => (some (Thingy.tInt v), s1, err)
    | (none, err) => (none, s1, err)
  else if quotes.matchesC (token.headD eofChar) ∧ token.length = 1 then
    let quote := token.headD eofChar
    let r2 := s1.nextUntil [quote]
    let r3 := r2.2.nextAssert quote r2.1
    (some (Thingy.tStr r2.1), r3.1, r3.2)
  else
    let tokenUpper := goToUpper (String.mk token)
    match asmTypes tokenUpper with
    | some typ => (some (Thingy.tInt typ), s1, [])
    | none =>
      match opSet.lookup tokenUpper with
      | some nextOp => (some (Thingy.tOp nextOp), s1, [])
      | none =>
        match p.getSym (String.mk token) with
        | (some v, err) => (some v.toThingy, s1, err)
        | (none, err) => (none, s1, err)

/-- The `opParenR` branch of `pushOp`: pop operators into the RPN stack until
the matching left parenthesis; an empty stack yields the pop's underflow
error followed by "mismatched parentheses".  Stacks are lists with the top
as head (the Go slices grow at the back, so they are these lists reversed). -/
def popParenR (ret : List Shuntable) (op : List shuntOp) :
    List Shuntable × List shuntOp × GoErrorList :=
  match op with
  | [] => (ret, [],
      (ErrorListF ESError "arithmetic stack underflow").addF ESError
        "mismatched parentheses")
  | top :: rest =>
    if top.id = "(" then (ret, rest, [])
    else popParenR (Shuntable.sOp top :: ret) rest

/-- The default branch of `pushOp` (shunt.go lines 196-205): pop the top while
it is no parenthesis and the incoming precedence strictly exceeds it
(the loop breaks on `op.id == opParenL || newOp.precedence <= op.precedence`). -/
def popWhileAbove (newOp : shuntOp) (ret : List Shuntable) (op : List shuntOp) :
    List Shuntable × List shuntOp :=
  match op with
  | [] => (ret, [])
  | top :: rest =>
    if top.id = "(" ∨ newOp.precedence ≤ top.precedence then (ret, top :: rest)
    else popWhileAbove newOp (Shuntable.sOp top :: ret) rest

/-- `pushOp` (shunt.go lines 182-208): handle one incoming operator; returns
the new RPN stack, operator stack, the next allowed operator set, and
errors. -/
def pushOp (ret : List Shuntable) (op : List shuntOp) (newOp : shuntOp) :
    List Shuntable × List shuntOp × opSetSel × GoErrorList :=
  if newOp.id = ")" then
    let r := popParenR ret op
    (r.1, r.2.1, opSetSel.binary, r.2.2)
  else if newOp.id = "(" then
    (ret, newOp :: op, opSetSel.unary, [])
  else
    let r := popWhileAbove newOp ret op
    (r.1, newOp :: r.2, opSetSel.unary, [])

/-- `shuntState` (shunt.go lines 210-214); the stacks' `wordsize` is the
constant `maxbytes` and is passed to `solve` directly. -/
structure shuntState where
  retStack : List Shuntable
  opStack : List shuntOp
  opSet : opSetSel

/-- `shuntLoop` (shunt.go lines 216-249), with explicit fuel bounding the
number of iterations and nested text-expression expansions (the Go loop can
diverge on cyclically defined expression symbols; every theorem below
supplies ample fuel).  Note the quirk on the operator branch: the source
discards the result of `err.AddL(errOp)`, so pushOp's errors are kept only
when `err` is already non-nil (Go mutates through the existing pointer). -/
def shuntLoopF (p : parser) : Nat → shuntState → lexStream → GoErrorList →
    shuntState × GoErrorList
  | 0, state, _, err => (state, err)
  | fuel + 1, state, stream, err =>
    if stream.peek = eofChar ∨ ¬ err.severity < ESError then (state, err)
    else
      let r := nextShuntToken p state.opSet stream
      let errToken := r.2.2
      let err := err.addL errToken
      if ¬ errToken.severity < ESError then (state, err)
      else
        let s1 := (r.2.1).ignore whitespace
        match r.1 with
        | some (Thingy.tInt v) =>
          shuntLoopF p fuel
            { state with retStack := Shuntable.sInt v :: state.retStack,
                         opSet := opSetSel.binary } s1 err
        | some (Thingy.tStr s) =>
          shuntLoopF p fuel
            { state with retStack := Shuntable.sStr s :: state.retStack,
                         opSet := opSetSel.binary } s1 err
        | some (Thingy.tOp newOp) =>
          let pr := pushOp state.retStack state.opStack newOp
          let err := if err.isEmpty then err else err.addL pr.2.2.2
          shuntLoopF p fuel ⟨pr.1, pr.2.1, pr.2.2.1⟩ s1 err
        | some (Thingy.tExpr e) =>
          let rec' := shuntLoopF p fuel state (newLexStream e) []
          shuntLoopF p fuel rec'.1 s1 (err.addL rec'.2)
        | some (Thingy.tOther noun) =>
          shuntLoopF p fuel state s1
            (err.addF ESError ("can't use " ++ noun ++ " in arithmetic expression"))
        | none => (state, err)

/-- The drain loop at the end of `shunt` (lines 260-267): flush remaining
operators into the RPN stack; left-over left parentheses are reported. -/
def drainOps (ret : List Shuntable) (op : List shuntOp) (err : GoErrorList) :
    List Shuntable × GoErrorList :=
  match op with
  | [] => (ret, err)
  | top :: rest =>
    if top.id = "(" then
      drainOps ret rest (err.addF ESError "missing a right parenthesis")
    else drainOps (Shuntable.sOp top :: ret) rest err

/-- `shunt` (shunt.go lines 252-269): run the loop from the unary operator
set, bail out at error severity, then drain the operator stack.  The returned
list is the RPN tape with its *last* element first (the Go slice reversed). -/
def shunt (p : parser) (fuel : Nat) (expr : String) :
    Option (List Shuntable) × GoErrorList :=
  let r := shuntLoopF p fuel ⟨[], [], opSetSel.unary⟩ (newLexStream expr) []
  if ¬ r.2.severity < ESError then (none, r.2)
  else
    let d := drainOps r.1.retStack r.1.opStack r.2
    (some d.1, d.2)

/-- The zero `asmInt` (Go's zero value, used for unpopped `Calc` arguments). -/
def zeroAsmInt : asmInt := { n := 0 }

/-- `shuntOp.Calc` (shunt.go lines 63-74) on the solver's working stack (whose
elements are always integers): pop `args` operands — the first popped lands in
`args[1]`, the second in `args[0]` — then apply the operator function.  A
failed pop returns the zero `args[0]` with the underflow error. -/
def calcOp (op : shuntOp) (stack : List asmInt) :
    asmInt × List asmInt × GoErrorList :=
  match op.args, stack with
  | 0, st => (op.function zeroAsmInt zeroAsmInt, st, [])
  | 1, [] => (zeroAsmInt, [], ErrorListF ESError "arithmetic stack underflow")
  | 1, b :: rest => (op.function zeroAsmInt b, rest, [])
  | 2, [] => (zeroAsmInt, [], ErrorListF ESError "arithmetic stack underflow")
  | 2, b :: [] => (zeroAsmInt, [], ErrorListF ESError "arithmetic stack underflow")
  | 2, b :: a :: rest => (op.function a b, rest, [])
  | _ + 3, st => (zeroAsmInt, st, [])

/-- `Calc` of one RPN element: integers return themselves (shunt.go lines
46-48); operators pop and apply.

Modelled from the spec: `asmString.Calc` is not under src/ (only the
`Shuntable` interface and the solver that calls it are); per the spec,
"string literals are converted to integers using big-endian byte packing;
failure if longer than 8 bytes", i.e. `asmString.toInt`. -/
def solveStep (val : Shuntable) (stack : List asmInt) :
    asmInt × List asmInt × GoErrorList :=
  match val with
  | Shuntable.sInt v => (v, stack, [])
  | Shuntable.sStr s =>
    let r := asmStr.toInt s
    (r.1, stack, r.2)
  | Shuntable.sOp op => calcOp op stack

/-- `asmInt.FitsIn` is not under src/ (only `solve`'s call to it is).
Modelled from the spec: "the result's byte-width must fit the evaluator's
current wordsize". -/
def asmInt.FitsIn (v : asmInt) (bytes : Nat) : Bool :=
  v.width ≤ bytes

/-- `shuntStack.solve` (shunt.go lines 272-294): process the RPN tape in
insertion order (our stack lists are top-first, hence `.reverse`); a `Calc`
result is pushed only when it carried no error; exactly one residual value
must remain, and it must fit the word size. -/
def solve (vals : List Shuntable) (wordsize : Nat) :
    Option asmInt × GoErrorList :=
  let r := vals.reverse.foldl
    (fun (acc : List asmInt × GoErrorList) val =>
      let s := solveStep val acc.1
      (if s.2.2.severity < ESError then s.1 :: s.2.1 else s.2.1,
       acc.2.addL s.2.2))
    ([], [])
  match r.1 with
  | [result] =>
    if ¬ result.FitsIn wordsize then
      (some result, r.2.addF ESError
        ("number exceeds " ++ toString (wordsize * 8) ++ " bits"))
    else (some result, r.2)
  | _ => (none, r.2.addF ESError "invalid RPN expression")

/-- `evalInt` (shunt.go lines 297-304): shunt, then solve if below error
severity. -/
def evalInt (p : parser) (fuel : Nat) (expr : String) :
    Option asmInt × GoErrorList :=
  let r := shunt p fuel expr
  if r.2.severity < ESError then
    match r.1 with
    | some vals =>
      let s := solve vals maxbytes
      (s.1, r.2.addL s.2)
    | none => (none, r.2)
  else (none, r.2)

/-- `EQUALS` (part_000 lines 526-532): evaluate the single parameter and bind
the symbol non-constant — but only when the evaluation produced no error list
at all (the handler checks `err == nil`). -/
def EQUALS (p : parser) (fuel : Nat) (sym : String) (param : String) :
    parser × GoErrorList :=
  let r := evalInt p fuel param
  if r.2.isEmpty then
    match r.1 with
    | some v => p.setSym sym (asmVal.aInt v) false
    | none => (p, r.2)
  else (p, r.2)

/-! ## Conditional assembly (part_000 lines 594-705) -/

/-- `parser.evalIf` (part_000 lines 594-602). -/
def parser.evalIf (p : parser) (matched : Bool) : parser × GoErrorList :=
  let valid := matched ∧ p.ifMatch = p.ifNest
  ({ p with
     ifMatch := if valid then p.ifMatch + 1 else p.ifMatch
     ifNest := p.ifNest + 1
     ifElse := ¬ valid }, [])

/-- `parser.evalElseif` (part_000 lines 604-615). -/
def parser.evalElseif (p : parser) (directive : String) (matched : Bool) :
    parser × GoErrorList :=
  if p.ifNest = 0 then (p, ErrorListF ESError ("unmatched " ++ directive))
  else if p.ifMatch = p.ifNest then
    ({ p with ifMatch := p.ifMatch - 1 }, [])
  else if p.ifMatch = p.ifNest - 1 ∧ p.ifElse ∧ matched then
    ({ p with ifMatch := p.ifMatch + 1, ifElse := false }, [])
  else (p, [])

/-- `ENDIF` (part_000 lines 695-705). -/
def ENDIF (p : parser) : parser × GoErrorList :=
  if p.ifNest = 0 then
    (p, ErrorListF ESError "found ENDIF without a matching condition")
  else
    let p1 :=
      if p.ifMatch = p.ifNest then
        { p with ifMatch := p.ifMatch - 1, ifElse := false }
      else p
    ({ p1 with ifNest := p1.ifNest - 1 }, [])

/-- One conditional-assembly directive as it reaches the engine: any IF-family
or ELSEIF-family item with its predicate already evaluated to `matched`
(`ELSE` is `evalElseif` with a constant-true predicate, per part_000 line
691-693), or `ENDIF`. -/
inductive condDirective where
  | dIf (matched : Bool)
  | dElseif (matched : Bool)
  | dElse
  | dEndif
deriving DecidableEq, Repr

/-- Dispatch one conditional directive to its handler. -/
def condStep (p : parser) : condDirective → parser × GoErrorList
  | .dIf m => p.evalIf m
  | .dElseif m => p.evalElseif "ELSEIF" m
  | .dElse => p.evalElseif "ELSE" true
  | .dEndif => ENDIF p

/-- Process a sequence of conditional directives (errors do not stop the
parser: each handler leaves the state well-defined and `eval` continues). -/
def condRun (p : parser) (ds : List condDirective) : parser :=
  ds.foldl (fun p d => (condStep p d).1) p

/-! ## Segments (data.go) -/

/-- `Emittable` (data.go lines 19-33, as used by `AddData`): a data blob with
its byte length (`Len()`) and emitted bytes (`Emit()`). -/
structure Emittable where
  len : Nat
  bytes : List Nat
deriving DecidableEq, Repr

/-- `BlobList.Append` (data.go lines 40-45): one entry *per byte*, each
holding the blob it came from (so a chunk's length is its byte count). -/
def BlobList.append' (l : List Emittable) (blob : Emittable) : List Emittable :=
  l ++ List.replicate blob.len blob

/-- `asmSegment` (data.go lines 85-91); `prev` is immaterial to the claims
checked here and dropped. -/
structure asmSegment where
  name : String
  chunks : List (List Emittable)
  overflowed : Bool
  wordsize : Nat
deriving Repr

/-- `asmSegment.width` (data.go lines 113-119): total bytes over all chunks. -/
def asmSegment.width (s : asmSegment) : Nat :=
  (s.chunks.map List.length).sum

/-- `maxSize` as `AddData` computes it: `uint64((1 << (s.wordsize*8)) - 1)`
with a `uint8` word size — the shift count wraps at 256, a 64-bit `int`
shifted by ≥ 64 is 0, and the `int → uint64` conversion is mod `2^64`.
For word sizes 2, 4, 8 this is `2^(wordsize*8) - 1`. -/
def goMaxSize (w : Nat) : Nat :=
  (((if (w * 8) % 256 < 64 then (2 : Int) ^ ((w * 8) % 256) else 0) - 1).emod
    (2 ^ 64)).toNat

/-- `asmSegment.AddData` (data.go lines 121-135): raise the overflow
diagnostic when the new total exceeds `maxSize` and the sticky flag is not
yet set; then append the blob to the last chunk (creating the first chunk if
none exists).  The `uint64` comparison of `blob.Len()+s.width()` wraps at
`2^64`. -/
def asmSegment.AddData (s : asmSegment) (blob : Emittable) :
    asmSegment × GoErrorList :=
  let maxSize := goMaxSize s.wordsize
  let overflowsNow := (blob.len + s.width) % 2 ^ 64 > maxSize ∧ ¬ s.overflowed
  let err : GoErrorList :=
    if overflowsNow then
      ErrorListF ESError ("declaration overflows " ++ toString (s.wordsize * 8)
        ++ "-bit segment: " ++ s.name)
    else []
  let chunks := if s.chunks.isEmpty then [[]] else s.chunks
  ({ name := s.name
     wordsize := s.wordsize
     overflowed := if overflowsNow then true else s.overflowed
     chunks := chunks.dropLast ++ [BlobList.append' (chunks.getLastD []) blob] },
   err)

/-- Append a sequence of blobs to a segment, recording for each one whether
its `AddData` emitted the overflow diagnostic. -/
def segRun (s : asmSegment) : List Emittable → asmSegment × List Bool
  | [] => (s, [])
  | blob :: rest =>
    let r := s.AddData blob
    let rr := segRun r.1 rest
    (rr.1, (!r.2.isEmpty) :: rr.2)

/-! ## Structures and unions (part_001, `asmStruc`) -/

/-- `asmStruc` (part_001 lines 100-106): name, struc/union flag
(`sStruc = true`, `sUnion = false`), per-byte data blob list, and the
enclosing structure.  The nilable Go `prev` pointer is split into the two
constructors `top` (outermost, `prev == nil`) and `nested`; the members map
is immaterial to the claims here. -/
inductive asmStruc where
  | top (name : String) (flag : Bool) (data : List Emittable)
  | nested (name : String) (flag : Bool) (data : List Emittable)
      (prev : asmStruc)
deriving DecidableEq, Repr

/-- `asmStruc.width` (part_001 lines 140-142). -/
def asmStruc.width : asmStruc → Nat
  | .top _ _ data => data.length
  | .nested _ _ data _ => data.length

/-- `asmStruc.AddData` (part_001 lines 144-167): a union that already has
data ignores blobs it fully covers (warning if their default bytes are
non-zero) and otherwise only propagates NUL padding; the blob (or padding) is
recursively added to every enclosing structure, then appended locally. -/
def asmStruc.AddData : asmStruc → Emittable → asmStruc × GoErrorList
  | .top name flag data, blob =>
    if flag = false ∧ data.length > 0 then
      let err : GoErrorList :=
        if blob.bytes.any (fun b => b ≠ 0) then
          ErrorListF ESWarning
            "ignoring default value for union member beyond the first"
        else []
      if data.length ≥ blob.len then (.top name flag data, err)
      else
        let padlen := blob.len - data.length
        let pad : Emittable := ⟨padlen, List.replicate padlen 0⟩
        (.top name flag (BlobList.append' data pad), err)
    else (.top name flag (BlobList.append' data blob), [])
  | .nested name flag data prev, blob =>
    if flag = false ∧ data.length > 0 then
      let err : GoErrorList :=
        if blob.bytes.any (fun b => b ≠ 0) then
          ErrorListF ESWarning
            "ignoring default value for union member beyond the first"
        else []
      if data.length ≥ blob.len then (.nested name flag data prev, err)
      else
        let padlen := blob.len - data.length
        let pad : Emittable := ⟨padlen, List.replicate padlen 0⟩
        let r := prev.AddData pad
        (.nested name flag (BlobList.append' data pad) r.1, err.addL r.2)
    else
      let r := prev.AddData blob
      (.nested name flag (BlobList.append' data blob) r.1, r.2)

/-- The widths of a structure and all its enclosing structures, innermost
first. -/
def asmStruc.chainWidths : asmStruc → List Nat
  | .top _ _ data => [data.length]
  | .nested _ _ data prev => data.length :: prev.chainWidths

/-- Whether every structure in the chain is a `STRUC` (no unions). -/
def asmStruc.allStruc : asmStruc → Bool
  | .top _ flag _ => flag
  | .nested _ flag _ prev => flag && prev.allStruc

/-! ## Text expansion and the macro engine (part_000 lines 144-345, 538-575) -/

/-- `parser.text` (part_000 lines 538-575): expand a `<...>` literal (MASM
trims whitespace, TASM does not; a missing `>` fails, trailing garbage is
tolerated with a diagnostic) or a `%name` symbol reference (integers print
decimal, expressions yield their body).  Go would panic indexing an empty
string; the failure result stands in for that unreachable case. -/
def parser.text (p : parser) (s : String) : String × GoErrorList :=
  let failRes : String × GoErrorList :=
    ("", ErrorListF ESError ("invalid <text string> or %text_macro: " ++ s))
  match s.data with
  | [] => failRes
  | c :: rest =>
    if c = '<' then
      let s1 := if p.syntax' = "MASM" then (goTrimSpace (String.mk rest)).data
                else rest
      match s1.findIdx? (fun ch => ch = '>') with
      | none => failRes
      | some rb =>
        let err : GoErrorList :=
          if rb ≠ s1.length - 1 then
            ErrorListF ESWarning
              ("extra characters on line: " ++ String.mk (s1.drop (rb + 1)))
          else []
        (String.mk (s1.take rb), err)
    else if c = '%' then
      let name := goTrimSpace (p.toSymCase (String.mk rest))
      match p.getSym name with
      | (some (asmVal.aInt v), _) => (toString v.n, [])
      | (some (asmVal.aExpr e), _) => (e, [])
      | (some other, _) =>
        ("", ErrorListF ESError
          ("can't use " ++ other.thingNoun ++ " as a text string: " ++ name))
      | (none, err) => ("", err)
    else failRes

/-- Lookup in a Go `map[string]string` modelled as an association list. -/
def strFind (m : List (String × String)) (name : String) : Option String :=
  match m with
  | [] => none
  | (k, v) :: rest => if k = name then some v else strFind rest name

/-- Assignment into a Go `map[string]string`. -/
def strAssign (m : List (String × String)) (name v : String) :
    List (String × String) :=
  match m with
  | [] => [(name, v)]
  | (k, old) :: rest =>
    if k = name then (k, v) :: rest else (k, old) :: strAssign rest name v

/-- The argument-verification loop of `newMacro` (part_000 lines 198-227):
split each header parameter at `:`, case-fold the name, upper-case the type;
`REST`/`VARARG` must be last; other non-empty, non-`REQ` types must be
`=<default>` with the default run through `parser.text`; errors abort the
whole definition (`none`). -/
def parseMacroArgs (p : parser) (total : Nat) :
    List String → Nat → Option (List asmMacroArg) × GoErrorList
  | [], _ => (some [], [])
  | param :: rest, i =>
    let kv := splitColon param
    let name := p.toSymCase kv.1
    let typ := goToUpper kv.2
    if typ = "REST" ∨ typ = "VARARG" then
      if i ≠ total - 1 then
        (none, ErrorListF ESError (name ++ ":" ++ typ
          ++ " must be the last parameter"))
      else
        match parseMacroArgs p total rest (i + 1) with
        | (some args, err) => (some (⟨name, typ, ""⟩ :: args), err)
        | r => r
    else if ¬ (typ = "" ∨ typ = "REQ") then
      if kv.2.data.headD eofChar = '=' then
        let t := p.text (goTrimSpace (String.mk (kv.2.data.drop 1)))
        if t.2.isEmpty then
          match parseMacroArgs p total rest (i + 1) with
          | (some args, err) => (some (⟨name, "=", t.1⟩ :: args), err)
          | r => r
        else (none, t.2)
      else
        (none, ErrorListF ESError ("invalid macro argument type: " ++ typ))
    else
      match parseMacroArgs p total rest (i + 1) with
      | (some args, err) => (some (⟨name, typ, ""⟩ :: args), err)
      | r => r

/-- `setArg` inside `expandMacro` (part_000 lines 260-274): a parameter both
present and non-empty is bound (running `<...>`/`%...` parameters through
`parser.text`, whose failure aborts with `got = false`); otherwise the map
is left as is. -/
def setArg (p : parser) (params : List String)
    (map : List (String × String)) (name : String) (i : Nat) :
    Bool × List (String × String) × GoErrorList :=
  if i < params.length ∧ (params.getD i "").length > 0 then
    let param := params.getD i ""
    if param.data.headD eofChar = '<' ∨ param.data.headD eofChar = '%' then
      let t := p.text param
      if t.2.isEmpty then (true, strAssign map name t.1, [])
      else (false, map, t.2)
    else (true, strAssign map name param, [])
  else (false, map, [])

/-- `strings.Join(params, ", ")` — `itemParams.String()` (aoyud.go lines
90-92). -/
def joinParams (params : List String) : String :=
  String.intercalate ", " params

/-- The argument-binding loop of `expandMacro` (part_000 lines 304-319):
`REST`/`VARARG` absorb all remaining call parameters; every other argument is
bound to its default and then to the call-site value when present; a missing
`REQ` argument appends "macro argument #i (name) is required". -/
def expandMacroBind (p : parser) (callParams : List String) :
    List asmMacroArg → Nat → List (String × String) → GoErrorList →
    List (String × String) × GoErrorList
  | [], _, map, errs => (map, errs)
  | arg :: rest, i, map, errs =>
    if arg.typ = "REST" ∨ arg.typ = "VARARG" then
      expandMacroBind p callParams rest (i + 1)
        (strAssign map arg.name (joinParams (callParams.drop i))) errs
    else
      let map := strAssign map arg.name arg.def'
      let r := setArg p callParams map arg.name i
      let errs := (errs.addL r.2.2).addL
        (if arg.typ = "REQ" ∧ ¬ r.1 then
          ErrorListF ESError ("macro argument #" ++ toString (i + 1) ++ " ("
            ++ arg.name ++ ") is required")
        else [])
      expandMacroBind p callParams rest (i + 1) r.2.1 errs

/-- `fmt.Sprintf("??%04X", n)` for the local-label counter (for counters
below `2^16`, the only ones the claims reach). -/
def hexDigit (n : Nat) : Char :=
  if n < 10 then Char.ofNat (48 + n) else Char.ofNat (65 + n - 10)
def hex4 (n : Nat) : String :=
  String.mk ['?', '?', hexDigit (n / 4096 % 16), hexDigit (n / 256 % 16),
             hexDigit (n / 16 % 16), hexDigit (n % 16)]

/-- The token-substitution walker `replace` inside `expandMacro` (part_000
lines 276-302): copy whitespace, read a `shuntDelim` token, consume `&`
before (cached) and after a replaced token, look tokens up case-folded.
Fuel bounds the iteration count exactly as in `shuntLoopF`. -/
def replaceGo (p : parser) (map : List (String × String)) :
    Nat → lexStream → Bool → String → String
  | 0, _, _, acc => acc
  | fuel + 1, stream, andCached, acc =>
    if stream.peek = eofChar then acc
    else
      let s1 := stream.ignore whitespace
      let ws := String.mk ((stream.input.drop stream.c).take (s1.c - stream.c))
      let r := s1.nextToken shuntDelim
      let token := String.mk r.1
      if token = "&" then
        replaceGo p map fuel r.2 true (acc ++ ws)
      else
        match strFind map (p.toSymCase token) with
        | some arg =>
          let s2 := if r.2.peek = '&' then (r.2.next).2 else r.2
          replaceGo p map fuel s2 false (acc ++ ws ++ arg)
        | none =>
          let acc2 := if andCached then acc ++ ws ++ "&" else acc ++ ws
          replaceGo p map fuel r.2 false (acc2 ++ token)

/-- `replace` on one text field: start the walker at the field's beginning
with enough fuel for its length. -/
def replaceField (p : parser) (map : List (String × String)) (s : String) :
    String :=
  replaceGo p map (s.length + 1) (newLexStream s) false ""

/-- `expandMacro` (part_000 lines 256-345): bind the arguments; any error
(in particular a missing `REQ` argument) aborts the expansion with `true`
and evaluates no body items; otherwise bind locals to fresh `??XXXX` names
and substitute through every body item's fields.  The expanded items (which
the source feeds to `p.eval`) are returned as a list. -/
def expandMacro (p : parser) (m : asmMacro) (callParams : List String) :
    Bool × GoErrorList × List item × parser :=
  let b := expandMacroBind p callParams m.args 0 [] []
  if ¬ b.2.isEmpty then (true, b.2, [], p)
  else
    let locr := m.locals.foldl
      (fun (acc : List (String × String) × parser) local' =>
        (strAssign acc.1 local' (hex4 acc.2.macroLocalCount),
         { acc.2 with macroLocalCount := acc.2.macroLocalCount + 1 }))
      (b.1, p)
    let map := locr.1
    let items := m.code.map (fun c =>
      { typ := c.typ
        sym := replaceField p map c.sym
        val := replaceField p map c.val
        params := c.params.map (replaceField p map) })
    (false, b.2, items, locr.2)

/-- A printable tag for RPN-stack elements (integers print their value,
operators their id); used to state facts about the shape of the RPN tape. -/
def Shuntable.tag : Shuntable → String
  | .sInt v => toString v.n
  | .sStr s => String.mk s
  | .sOp op => op.id

set_option maxRecDepth 10000

/-! ## Theorems

Helper lemmas first, then one theorem per claim (with witnesses and
counterexamples where required). -/

theorem wrap64_emod_pow (x : Int) (m : Nat) (hm : m ≤ 64) :
    (wrap64 x).emod (2 ^ m) = x.emod (2 ^ m) := by
  show ((x + 2 ^ 63) % (2 ^ 64) - 2 ^ 63) % (2 ^ m) = x % (2 ^ m)
  have hdvd : ((2 : Int) ^ m) ∣ ((2 : Int) ^ 64) := pow_dvd_pow 2 hm
  rw [Int.sub_emod ((x + 2 ^ 63) % (2 ^ 64)) (2 ^ 63) (2 ^ m),
      Int.emod_emod_of_dvd _ hdvd, ← Int.sub_emod]
  norm_num

theorem fdiv_pow_emod (x : Int) (a : Nat) :
    (x.fdiv ((2 : Int) ^ a)).emod 256 =
      (x.emod ((2 : Int) ^ (a + 8))).fdiv ((2 : Int) ^ a) := by
  have hdpos : (0 : Int) < 2 ^ a := by positivity
  have hDpos : (0 : Int) < 2 ^ (a + 8) := by positivity
  rw [Int.fdiv_eq_ediv _ (le_of_lt hdpos), Int.fdiv_eq_ediv _ (le_of_lt hdpos)]
  show (x / 2 ^ a) % 256 = (x % 2 ^ (a + 8)) / 2 ^ a
  have hx : x = 2 ^ (a + 8) * (x / 2 ^ (a + 8)) + x % 2 ^ (a + 8) :=
    (Int.ediv_add_emod x _).symm
  have hr0 : (0 : Int) ≤ x % 2 ^ (a + 8) := Int.emod_nonneg x (by positivity)
  have hrlt : x % 2 ^ (a + 8) < 2 ^ (a + 8) := Int.emod_lt_of_pos x hDpos
  set q := x / 2 ^ (a + 8) with hq
  set r := x % 2 ^ (a + 8) with hr
  have h2 : (2 : Int) ^ (a + 8) = 2 ^ a * 256 := by rw [pow_add]; norm_num
  conv_lhs => rw [hx]
  have hstep : (2 ^ (a + 8) * q + r) / 2 ^ a = r / 2 ^ a + q * 256 := by
    have h3 := Int.add_mul_ediv_right r (q * 256) (show (2 : Int) ^ a ≠ 0 by omega)
    rw [show (2 : Int) ^ (a + 8) * q + r = r + q * 256 * 2 ^ a by rw [h2]; ring]
    exact h3
  rw [hstep]
  have hrd0 : (0 : Int) ≤ r / 2 ^ a := Int.ediv_nonneg hr0 (le_of_lt hdpos)
  have hrdlt : r / 2 ^ a < 256 := by
    rw [Int.ediv_lt_iff_lt_mul hdpos]
    calc r < 2 ^ (a + 8) := hrlt
    _ = 256 * 2 ^ a := by rw [h2]; ring
  rw [Int.add_mul_emod_self]
  exact Int.emod_eq_of_lt hrd0 hrdlt

theorem formatByte_wrap (V : Nat) (i : Nat) (hi : i ≤ 7) :
    formatByte (wrap64 (V : Int)) i = Char.ofNat (V / 2 ^ (i * 8) % 256) := by
  unfold formatByte
  rw [fdiv_pow_emod, wrap64_emod_pow _ _ (by omega : i * 8 + 8 ≤ 64)]
  have hcast : ((V : Int)).emod ((2 : Int) ^ (i * 8 + 8)) =
      ((V % 2 ^ (i * 8 + 8) : Nat) : Int) := by
    push_cast
    rfl
  rw [hcast, Int.fdiv_eq_ediv _ (by positivity)]
  have hcast2 : ((V % 2 ^ (i * 8 + 8) : Nat) : Int) / ((2 : Int) ^ (i * 8)) =
      ((V % 2 ^ (i * 8 + 8) / 2 ^ (i * 8) : Nat) : Int) := by
    push_cast
    rfl
  rw [hcast2]
  have hdiv : V % 2 ^ (i * 8 + 8) / 2 ^ (i * 8) = V / 2 ^ (i * 8) % 256 := by
    rw [show (2 : Nat) ^ (i * 8 + 8) = 2 ^ (i * 8) * 256 by rw [pow_add]; norm_num]
    exact Nat.mod_mul_right_div_self V (2 ^ (i * 8)) 256
  rw [hdiv]
  congr 1

/-- C1: Evaluating `X = 5 + 3 * 2` is claimed to bind `X` to 11, with the
shunting-yard pushing an incoming operator only when its precedence strictly
exceeds the stack top and popping on equal precedence.  The code does the
opposite (`pushOp` pops while the *incoming* precedence strictly exceeds the
top), so the RPN tape for `5 + 3 * 2` comes out as `5 3 + 2 *` and `X` is
bound to the integer 16 (base 10), not 11. -/
theorem C1_equals_binds_16 :
    ((EQUALS (parser.init "TASM") 16 "X" "5 + 3 * 2").1.syms =
      [("X", ⟨false, asmVal.aInt ⟨16, 0, 10⟩⟩)]) ∧
    ((EQUALS (parser.init "TASM") 16 "X" "5 + 3 * 2").2 = []) ∧
    ((shunt (parser.init "TASM") 16 "5 + 3 * 2").1.map
        (fun st => st.reverse.map Shuntable.tag) =
      some ["5", "3", "+", "2", "*"]) :=
  ⟨rfl, rfl, rfl⟩

/-- C2: the width in bytes is claimed to be the smallest of {1,2,4,8} holding
`|value|`; the code compares with strict `<` against `0xFF`/`0xFFFF`/
`0xFFFFFFFF`, so the boundary values 255, 65535 and 2^32−1 get the next
larger width than the claim (and `specWidth`, the spec's definition)
require. -/
theorem C2_width_boundary_values :
    asmInt.width ⟨255, 0, 10⟩ = 2 ∧ asmInt.width ⟨65535, 0, 10⟩ = 4 ∧
    asmInt.width ⟨4294967295, 0, 10⟩ = 8 ∧
    specWidth 255 = 1 ∧ specWidth 65535 = 2 ∧ specWidth 4294967295 = 4 := by
  refine ⟨?_, ?_, ?_, ?_, ?_, ?_⟩ <;> decide

/-- C3 (counterexample): the string–integer round trip fails on the one-byte
string `"\x00"`: packing gives 0, and `formatASCII` strips all leading NUL
bytes, returning the empty string. -/
theorem C3_leading_nul_counterexample :
    ([Char.ofNat 0] : asmStr).length ≤ 8 ∧
    (∀ c ∈ ([Char.ofNat 0] : asmStr), c.toNat < 256) ∧
    (asmStr.toInt [Char.ofNat 0]).1.formatASCII ≠ [Char.ofNat 0] := by
  refine ⟨by decide, by decide, by decide⟩

/-- C4 (counterexample): the claim gives unary `NOT` precedence 8, but the
merged operator table assigns it precedence 4. -/
theorem C4_not_precedence_counterexample :
    (unaryOperators "NOT").map shuntOp.precedence = some 4 ∧
    ¬ (unaryOperators "NOT").map shuntOp.precedence = some 8 := by
  refine ⟨rfl, by decide⟩

/-- C4 (amended): in the merged priority table the unary operators `+` and
`-` have precedence 8, while `NOT` has precedence 4. -/
theorem C4_unary_precedences_amended :
    (unaryOperators "+").map shuntOp.precedence = some 8 ∧
    (unaryOperators "-").map shuntOp.precedence = some 8 ∧
    (unaryOperators "NOT").map shuntOp.precedence = some 4 :=
  ⟨rfl, rfl, rfl⟩

/-- C7: setting a name whose existing symbol-table entry is flagged constant
fails with the "constant symbol … already defined elsewhere" diagnostic and
leaves the parser (in particular the symbol table, old value and constant
flag) unchanged. -/
theorem C7_constant_redefinition_fails (p : parser) (name : String)
    (entry : symbol) (hfind : p.syms.find (p.toSymCase name) = some entry)
    (hconst : entry.constant = true) (val : asmVal) (c : Bool) :
    (p.setSym name val c).1 = p ∧
    (p.setSym name val c).2 = ErrorListF ESError
      ("constant symbol " ++ p.toSymCase name ++ " already defined elsewhere") := by
  unfold parser.setSym
  simp only [hfind, hconst]
  exact ⟨rfl, rfl⟩

/-- C7 (witness): redefining the constant symbol `X` (looked up through the
default case folding via the name `x`) fails and preserves the table. -/
theorem C7_constant_redefinition_witness :
    (({ parser.init "TASM" with
        syms := [("X", ⟨true, asmVal.aInt ⟨5, 0, 10⟩⟩)] } : parser).setSym "x"
          (asmVal.aInt ⟨7, 0, 10⟩) false).1 =
      { parser.init "TASM" with
        syms := [("X", ⟨true, asmVal.aInt ⟨5, 0, 10⟩⟩)] } :=
  (C7_constant_redefinition_fails
    { parser.init "TASM" with syms := [("X", ⟨true, asmVal.aInt ⟨5, 0, 10⟩⟩)] }
    "x" ⟨true, asmVal.aInt ⟨5, 0, 10⟩⟩ rfl rfl (asmVal.aInt ⟨7, 0, 10⟩)
    false).1

/-- C8: for `M MACRO A:REQ, B:=<7>`, the argument parser yields `A` required
and `B` defaulting to the text `7`; expanding `M 3` binds `A` to `3` and `B`
to `7` in the body with no diagnostics, while expanding `M` with no
parameters raises exactly "macro argument #1 (A) is required" and expands no
body items. -/
theorem C8_macro_required_and_default_args :
    (parseMacroArgs (parser.init "TASM") 2 ["A:REQ", "B:=<7>"] 0 =
      (some [⟨"A", "REQ", ""⟩, ⟨"B", "=", "7"⟩], [])) ∧
    (expandMacro (parser.init "TASM")
        ⟨[⟨"A", "REQ", ""⟩, ⟨"B", "=", "7"⟩],
         [⟨1, "", "DB", ["A"]⟩, ⟨1, "", "DB", ["B"]⟩], []⟩ ["3"]).1 = false ∧
    (expandMacro (parser.init "TASM")
        ⟨[⟨"A", "REQ", ""⟩, ⟨"B", "=", "7"⟩],
         [⟨1, "", "DB", ["A"]⟩, ⟨1, "", "DB", ["B"]⟩], []⟩ ["3"]).2.1 = [] ∧
    (expandMacro (parser.init "TASM")
        ⟨[⟨"A", "REQ", ""⟩, ⟨"B", "=", "7"⟩],
         [⟨1, "", "DB", ["A"]⟩, ⟨1, "", "DB", ["B"]⟩], []⟩ ["3"]).2.2.1 =
      [⟨1, "", "DB", ["3"]⟩, ⟨1, "", "DB", ["7"]⟩] ∧
    (expandMacro (parser.init "TASM")
        ⟨[⟨"A", "REQ", ""⟩, ⟨"B", "=", "7"⟩],
         [⟨1, "", "DB", ["A"]⟩, ⟨1, "", "DB", ["B"]⟩], []⟩ []).1 = true ∧
    (expandMacro (parser.init "TASM")
        ⟨[⟨"A", "REQ", ""⟩, ⟨"B", "=", "7"⟩],
         [⟨1, "", "DB", ["A"]⟩, ⟨1, "", "DB", ["B"]⟩], []⟩ []).2.1 =
      [⟨"macro argument #1 (A) is required", ESError⟩] ∧
    (expandMacro (parser.init "TASM")
        ⟨[⟨"A", "REQ", ""⟩, ⟨"B", "=", "7"⟩],
         [⟨1, "", "DB", ["A"]⟩, ⟨1, "", "DB", ["B"]⟩], []⟩ []).2.2.1 = [] :=
  ⟨rfl, rfl, rfl, rfl, rfl, rfl, rfl⟩

/-- C10: before any OPTION CASEMAP directive the parser starts with
`symCase = false`, so symbol names are upper-cased on both insert (`setSym`)
and lookup (`getSym`): two names equal up to letter case denote the same
symbol. -/
theorem C10_default_casemap_folds_names (syn n1 n2 : String)
    (h : goToUpper n1 = goToUpper n2) (val : asmVal) (c : Bool) :
    (parser.init syn).toSymCase n1 = goToUpper n1 ∧
    ((((parser.init syn).setSym n1 val c).1.getSym n2).1 = some val) := by
  constructor
  · simp [parser.toSymCase, parser.init]
  · simp [parser.setSym, parser.init, parser.toSymCase, parser.getSym,
      symMap.find, symMap.assign, h]

/-- C10 (witness): `foo` and `FOO` reach the same symbol by default. -/
theorem C10_default_casemap_witness :
    (parser.init "TASM").toSymCase "foo" = goToUpper "foo" ∧
    ((((parser.init "TASM").setSym "foo" (asmVal.aInt ⟨1, 0, 10⟩) false).1.getSym
        "FOO").1 = some (asmVal.aInt ⟨1, 0, 10⟩)) :=
  C10_default_casemap_folds_names "TASM" "foo" "FOO" (by decide)
    (asmVal.aInt ⟨1, 0, 10⟩) false

theorem condStep_inv (p : parser) (d : condDirective)
    (h0 : 0 ≤ p.ifMatch) (h : p.ifMatch ≤ p.ifNest) :
    0 ≤ (condStep p d).1.ifMatch ∧
      (condStep p d).1.ifMatch ≤ (condStep p d).1.ifNest := by
  cases d <;>
    simp [condStep, parser.evalIf, parser.evalElseif, ENDIF] <;>
    split_ifs <;> constructor <;>
    first
    | omega
    | (simp; omega)
    | simp

theorem condRun_inv (ds : List condDirective) : ∀ (p : parser),
    0 ≤ p.ifMatch → p.ifMatch ≤ p.ifNest →
    0 ≤ (condRun p ds).ifMatch ∧ (condRun p ds).ifMatch ≤ (condRun p ds).ifNest := by
  induction ds with
  | nil => intro p h0 h; exact ⟨h0, h⟩
  | cons d rest ih =>
    intro p h0 h
    have hs := condStep_inv p d h0 h
    simpa [condRun, List.foldl] using ih (condStep p d).1 hs.1 hs.2

/-- C5: from the initial parser state, after any sequence of IF-family,
ELSEIF-family, ELSE and ENDIF directives, `ifMatch ≤ ifNest`; and an ENDIF
handled inside an open conditional (`ifNest ≠ 0`, i.e. one that is not
rejected as unmatched) while `ifMatch = ifNest` decrements both counters
together. -/
theorem C5_ifmatch_le_ifnest (syn : String) (ds : List condDirective) :
    ((condRun (parser.init syn) ds).ifMatch ≤ (condRun (parser.init syn) ds).ifNest) ∧
    (∀ p : parser, p.ifMatch = p.ifNest → p.ifNest ≠ 0 →
      (condStep p condDirective.dEndif).1.ifMatch = p.ifMatch - 1 ∧
      (condStep p condDirective.dEndif).1.ifNest = p.ifNest - 1) := by
  constructor
  · exact (condRun_inv ds (parser.init syn) (by simp [parser.init])
      (by simp [parser.init])).2
  · intro p heq hne
    simp [condStep, ENDIF, hne, heq]

/-- C5 (witness): a concrete `IF 1 … ENDIF` run keeps the invariant, and a
concrete ENDIF at `ifMatch = ifNest = 1` steps both counters down to 0. -/
theorem C5_ifmatch_le_ifnest_witness :
    ((condRun (parser.init "TASM") [condDirective.dIf true, condDirective.dEndif]).ifMatch ≤
      (condRun (parser.init "TASM") [condDirective.dIf true, condDirective.dEndif]).ifNest) ∧
    ((condStep { parser.init "TASM" with ifNest := 1, ifMatch := 1 }
        condDirective.dEndif).1.ifMatch =
      ({ parser.init "TASM" with ifNest := 1, ifMatch := 1 } : parser).ifMatch - 1 ∧
     (condStep { parser.init "TASM" with ifNest := 1, ifMatch := 1 }
        condDirective.dEndif).1.ifNest =
      ({ parser.init "TASM" with ifNest := 1, ifMatch := 1 } : parser).ifNest - 1) :=
  ⟨(C5_ifmatch_le_ifnest "TASM" [condDirective.dIf true, condDirective.dEndif]).1,
   (C5_ifmatch_le_ifnest "TASM" []).2
     { parser.init "TASM" with ifNest := 1, ifMatch := 1 } rfl (by decide)⟩

theorem width_append_last (b : Emittable) :
    ∀ (tl : List (List Emittable)) (x : List Emittable),
    (((x :: tl).dropLast ++
        [BlobList.append' ((x :: tl).getLastD []) b]).map List.length).sum =
      ((x :: tl).map List.length).sum + b.len := by
  intro tl
  induction tl with
  | nil =>
    intro x
    simp [BlobList.append']
  | cons y tl ih =>
    intro x
    have hih := ih y
    simp only [List.dropLast_cons₂, List.getLastD_cons, List.cons_append,
      List.map_cons, List.map_append, List.sum_cons, List.sum_append] at hih ⊢
    omega

theorem addData_width (s : asmSegment) (blob : Emittable) :
    (s.AddData blob).1.width = s.width + blob.len := by
  cases hc : s.chunks with
  | nil =>
    simp [asmSegment.AddData, asmSegment.width, hc, BlobList.append']
  | cons x tl =>
    have hlast := width_append_last blob tl x
    simp only [asmSegment.AddData, asmSegment.width, hc, List.isEmpty_cons,
      Bool.false_eq_true, if_false] at hlast ⊢
    simp only [BlobList.append', List.map_cons, List.map_append, List.sum_cons,
      List.sum_append, List.length_append, List.length_replicate] at hlast ⊢
    omega

theorem addData_overflowed (s : asmSegment) (blob : Emittable) :
    (s.AddData blob).1.overflowed =
      (s.overflowed ||
        decide ((blob.len + s.width) % 2 ^ 64 > goMaxSize s.wordsize)) := by
  simp only [asmSegment.AddData]
  split_ifs with h
  · obtain ⟨hgt, hnov⟩ := h
    have h2 : s.overflowed = false := by
      cases hso : s.overflowed
      · rfl
      · exact absurd hso (by simpa using hnov)
    simp only [h2, Bool.false_or]
    exact (decide_eq_true hgt).symm
  · cases hso : s.overflowed
    · have hnc : ¬ (blob.len + s.width) % 2 ^ 64 > goMaxSize s.wordsize := by
        intro hcond
        exact h ⟨hcond, by simp [hso]⟩
      simp only [hso, Bool.false_or]
      exact (decide_eq_false hnc).symm
    · simp [hso]

theorem addData_wordsize (s : asmSegment) (blob : Emittable) :
    (s.AddData blob).1.wordsize = s.wordsize := rfl

theorem addData_flag (s : asmSegment) (blob : Emittable) :
    (!(s.AddData blob).2.isEmpty) =
      (decide ((blob.len + s.width) % 2 ^ 64 > goMaxSize s.wordsize) &&
        !s.overflowed) := by
  simp only [asmSegment.AddData]
  split_ifs with h
  · obtain ⟨hgt, hnov⟩ := h
    have h2 : s.overflowed = false := by
      cases hso : s.overflowed
      · rfl
      · exact absurd hso (by simpa using hnov)
    simp only [h2, ErrorListF, List.isEmpty_cons, Bool.not_false, Bool.and_true]
    exact (decide_eq_true hgt).symm
  · cases hso : s.overflowed
    · have hnc : ¬ (blob.len + s.width) % 2 ^ 64 > goMaxSize s.wordsize := by
        intro hcond
        exact h ⟨hcond, by simp [hso]⟩
      simp only [hso, List.isEmpty_nil, Bool.not_true, Bool.not_false,
        Bool.and_true]
      exact (decide_eq_false hnc).symm
    · simp [hso]

theorem segRun_flag_iff : ∀ (blobs : List Emittable) (s : asmSegment),
    s.overflowed = decide (s.width > goMaxSize s.wordsize) →
    s.width + (blobs.map Emittable.len).sum < 2 ^ 64 →
    ∀ i, ((segRun s blobs).2.getD i false = true ↔
      (s.width + ((blobs.take (i + 1)).map Emittable.len).sum >
          goMaxSize s.wordsize ∧
       ¬ s.width + ((blobs.take i).map Emittable.len).sum >
          goMaxSize s.wordsize)) := by
  intro blobs
  induction blobs with
  | nil =>
    intro s hinv hnw i
    simp [segRun]
  | cons b rest ih =>
    intro s hinv hnw i
    have hw : (s.AddData b).1.width = s.width + b.len := addData_width s b
    have hws : (s.AddData b).1.wordsize = s.wordsize := addData_wordsize s b
    have hov := addData_overflowed s b
    have hfl := addData_flag s b
    have hnw' : s.width + b.len + ((rest.map Emittable.len).sum) < 2 ^ 64 := by
      simp only [List.map_cons, List.sum_cons] at hnw
      omega
    have hmod : (b.len + s.width) % 2 ^ 64 = b.len + s.width :=
      Nat.mod_eq_of_lt (by omega)
    cases i with
    | zero =>
      simp only [segRun, List.getD_cons_zero, List.take_succ_cons,
        List.take_zero, List.map_cons, List.map_nil, List.sum_cons,
        List.sum_nil, Nat.add_zero]
      rw [hfl, hmod, hinv]
      constructor
      · intro hand
        have h1 := (Bool.and_eq_true _ _).mp hand
        have hc : b.len + s.width > goMaxSize s.wordsize :=
          of_decide_eq_true h1.1
        have hno : ¬ s.width > goMaxSize s.wordsize := by
          have := h1.2
          simp only [Bool.not_eq_true'] at this
          exact of_decide_eq_false this
        exact ⟨by omega, by omega⟩
      · intro hand
        refine (Bool.and_eq_true _ _).mpr ⟨decide_eq_true (by omega), ?_⟩
        simp only [Bool.not_eq_true']
        exact decide_eq_false (by omega)
    | succ i =>
      have hinv' : (s.AddData b).1.overflowed =
          decide ((s.AddData b).1.width > goMaxSize (s.AddData b).1.wordsize) := by
        rw [hov, hw, hws, hinv, hmod]
        by_cases h1 : s.width + b.len > goMaxSize s.wordsize
        · by_cases h2 : s.width > goMaxSize s.wordsize
          · simp [h1, h2]
          · simp [h1, h2, show b.len + s.width > goMaxSize s.wordsize by omega]
        · simp [h1, show ¬ s.width > goMaxSize s.wordsize by omega,
            show ¬ b.len + s.width > goMaxSize s.wordsize by omega]
      have := ih (s.AddData b).1 hinv' (by rw [hw]; exact hnw') i
      rw [hw, hws] at this
      simp only [segRun, List.getD_cons_succ, List.take_succ_cons,
        List.map_cons, List.sum_cons]
      rw [this]
      constructor
      · intro hand
        exact ⟨by omega, by omega⟩
      · intro hand
        exact ⟨by omega, by omega⟩

theorem segRun_count_overflowed : ∀ (blobs : List Emittable) (s : asmSegment),
    s.overflowed = true → (segRun s blobs).2.count true = 0 := by
  intro blobs
  induction blobs with
  | nil =>
    intro s h
    simp [segRun]
  | cons b rest ih =>
    intro s h
    have hfl := addData_flag s b
    rw [h] at hfl
    simp only [Bool.not_true, Bool.and_false] at hfl
    have hov := addData_overflowed s b
    rw [h] at hov
    simp only [Bool.true_or] at hov
    simp only [segRun, List.count_cons, hfl, ih (s.AddData b).1 hov]
    simp

theorem segRun_count_le_one : ∀ (blobs : List Emittable) (s : asmSegment),
    (segRun s blobs).2.count true ≤ 1 := by
  intro blobs
  induction blobs with
  | nil =>
    intro s
    simp [segRun]
  | cons b rest ih =>
    intro s
    cases hfl : (!(s.AddData b).2.isEmpty) with
    | true =>
      have hov : (s.AddData b).1.overflowed = true := by
        have h1 := addData_flag s b
        rw [hfl] at h1
        have h2 := (Bool.and_eq_true _ _).mp h1.symm
        rw [addData_overflowed s b, h2.1]
        simp
      simp only [segRun, List.count_cons, hfl,
        segRun_count_overflowed rest (s.AddData b).1 hov]
      simp
    | false =>
      have := ih (s.AddData b).1
      simp only [segRun, List.count_cons, hfl]
      simpa using this

/-- C6: appending blobs to a fresh segment of word size 2, 4 or 8 raises the
overflow diagnostic exactly once — on precisely the first append that pushes
the total bytes past `2^(wordsize·8) − 1` — and never again, no matter how
many more blobs arrive.  (The hypothesis that the total stays below `2^64`
reflects the `uint64` arithmetic of the comparison.) -/
theorem C6_segment_overflow_exactly_once (w : Nat) (hw : w = 2 ∨ w = 4 ∨ w = 8)
    (name : String) (blobs : List Emittable)
    (hsum : (blobs.map Emittable.len).sum < 2 ^ 64) :
    (∀ i, ((segRun ⟨name, [], false, w⟩ blobs).2.getD i false = true ↔
        (((blobs.take (i + 1)).map Emittable.len).sum > 2 ^ (w * 8) - 1 ∧
         ¬ ((blobs.take i).map Emittable.len).sum > 2 ^ (w * 8) - 1)))
    ∧ (segRun ⟨name, [], false, w⟩ blobs).2.count true ≤ 1 := by
  have hmax : goMaxSize w = 2 ^ (w * 8) - 1 := by
    rcases hw with h | h | h <;> subst h <;> decide
  have hwidth : (⟨name, [], false, w⟩ : asmSegment).width = 0 := by
    simp [asmSegment.width]
  constructor
  · intro i
    have h := segRun_flag_iff blobs ⟨name, [], false, w⟩
      (by rw [hwidth]; simp [hmax]) (by rw [hwidth]; simpa using hsum) i
    rw [hwidth] at h
    simpa [hmax] using h
  · exact segRun_count_le_one blobs _

/-- C6 (witness): a 16-bit segment receiving blobs of 65535, 1 and 5 bytes
raises the diagnostic exactly on the second append. -/
theorem C6_segment_overflow_witness :
    (∀ i, ((segRun ⟨"DATA", [], false, 2⟩
        [⟨65535, []⟩, ⟨1, []⟩, ⟨5, []⟩]).2.getD i false = true ↔
        ((([(⟨65535, []⟩ : Emittable), ⟨1, []⟩, ⟨5, []⟩].take (i + 1)).map
            Emittable.len).sum > 2 ^ (2 * 8) - 1 ∧
         ¬ (([(⟨65535, []⟩ : Emittable), ⟨1, []⟩, ⟨5, []⟩].take i).map
            Emittable.len).sum > 2 ^ (2 * 8) - 1)))
    ∧ (segRun ⟨"DATA", [], false, 2⟩
        [⟨65535, []⟩, ⟨1, []⟩, ⟨5, []⟩]).2.count true ≤ 1 :=
  C6_segment_overflow_exactly_once 2 (Or.inl rfl) "DATA"
    [⟨65535, []⟩, ⟨1, []⟩, ⟨5, []⟩] (by norm_num)

/-- C9 (counterexample): with a union of width 1 as the innermost open
structure inside an enclosing struc `S1`, appending a 1-byte blob is fully
absorbed by the union: the chain widths stay `[1, 0]`, while the claim
demands every enclosing structure to grow by the blob's length. -/
theorem C9_union_absorbs_counterexample :
    ((asmStruc.nested "U" false [⟨1, [0]⟩] (asmStruc.top "S1" true [])).AddData
        ⟨1, [0]⟩).1.chainWidths = [1, 0] ∧
    [1, 0] ≠ ((asmStruc.nested "U" false [⟨1, [0]⟩]
        (asmStruc.top "S1" true [])).chainWidths.map
          (fun w => w + (⟨1, [0]⟩ : Emittable).len)) := by
  refine ⟨rfl, by decide⟩

/-- C9 (amended): in a chain that contains no unions, appending a blob to the
innermost open structure appends the same number of bytes to every structure
in the chain — every width grows by exactly the blob's length.  (A union that
already covers the blob stops the propagation, leaving itself and all its
enclosing structures unchanged; a narrower union propagates only its NUL
padding.) -/
theorem C9_struc_chain_growth_amended (v : asmStruc) (blob : Emittable)
    (h : v.allStruc = true) :
    (v.AddData blob).1.chainWidths =
      v.chainWidths.map (fun w => w + blob.len) := by
  induction v with
  | top name flag data =>
    have hf : flag = true := by simpa [asmStruc.allStruc] using h
    subst hf
    simp [asmStruc.AddData, asmStruc.chainWidths, BlobList.append']
  | nested name flag data prev ih =>
    have hf : flag = true ∧ prev.allStruc = true := by
      simpa [asmStruc.allStruc] using h
    obtain ⟨hf1, hf2⟩ := hf
    subst hf1
    simp [asmStruc.AddData, asmStruc.chainWidths, BlobList.append', ih hf2]

/-- C9 (witness): appending a 3-byte blob to a struc nested in a struc grows
both widths by 3. -/
theorem C9_struc_chain_growth_witness :
    ((asmStruc.nested "S2" true [] (asmStruc.top "S1" true
        [⟨2, [0, 0]⟩, ⟨2, [0, 0]⟩])).AddData ⟨3, [1, 2, 3]⟩).1.chainWidths =
      (asmStruc.nested "S2" true [] (asmStruc.top "S1" true
        [⟨2, [0, 0]⟩, ⟨2, [0, 0]⟩])).chainWidths.map
          (fun w => w + (⟨3, [1, 2, 3]⟩ : Emittable).len) :=
  C9_struc_chain_growth_amended _ _ (by decide)

/-- C3 (amended): for every byte string of length at most 8 **whose first
byte is not NUL**, converting it to an integer (big-endian base-256 packing)
and formatting that integer back to ASCII reproduces exactly the original
bytes.  (`formatASCII` strips leading NUL bytes, so strings with a leading
NUL do not round-trip; see the counterexample.) -/
theorem C3_string_roundtrip_amended (bs : asmStr) (hlen : bs.length ≤ 8)
    (hbytes : ∀ c ∈ bs, c.toNat < 256)
    (hhead : ∀ c ∈ bs.take 1, c ≠ Char.ofNat 0) :
    (asmStr.toInt bs).2 = [] ∧ (asmStr.toInt bs).1.formatASCII = bs := by
  rcases bs with _|⟨c0,_|⟨c1,_|⟨c2,_|⟨c3,_|⟨c4,_|⟨c5,_|⟨c6,_|⟨c7,_|⟨c8,rest⟩⟩⟩⟩⟩⟩⟩⟩⟩
  · exact ⟨rfl, by decide⟩
  · refine ⟨rfl, ?_⟩
    have h0 : c0.toNat < 256 := hbytes c0 (by simp)
    have hh : c0 ≠ Char.ofNat 0 := hhead c0 (by simp)
    show asmInt.formatASCII _ = _
    rw [asmStr.toInt]
    simp only [List.length_cons, List.length_nil, maxbytes]
    norm_num
    rw [show List.range 1 = [0] from rfl]
    simp only [List.foldl, List.getD, List.get?]
    rw [asmInt.formatASCII]
    rw [show List.range maxbytes = [0,1,2,3,4,5,6,7] from rfl]
    simp only [List.map, maxbytes]
    norm_num
    rw [formatByte_wrap _ 7 (by omega), formatByte_wrap _ 6 (by omega),
        formatByte_wrap _ 5 (by omega), formatByte_wrap _ 4 (by omega),
        formatByte_wrap _ 3 (by omega), formatByte_wrap _ 2 (by omega),
        formatByte_wrap _ 1 (by omega), formatByte_wrap _ 0 (by omega)]
    rw [show (c0.toNat) / 2 ^ (7 * 8) % 256 = 0 from by norm_num; omega,
        show (c0.toNat) / 2 ^ (6 * 8) % 256 = 0 from by norm_num; omega,
        show (c0.toNat) / 2 ^ (5 * 8) % 256 = 0 from by norm_num; omega,
        show (c0.toNat) / 2 ^ (4 * 8) % 256 = 0 from by norm_num; omega,
        show (c0.toNat) / 2 ^ (3 * 8) % 256 = 0 from by norm_num; omega,
        show (c0.toNat) / 2 ^ (2 * 8) % 256 = 0 from by norm_num; omega,
        show (c0.toNat) / 2 ^ (1 * 8) % 256 = 0 from by norm_num; omega,
        show (c0.toNat) / 2 ^ (0 * 8) % 256 = c0.toNat from by norm_num; omega]
    rw [Char.ofNat_toNat]
    simp [List.dropWhile, hh]
  · refine ⟨rfl, ?_⟩
    have h0 : c0.toNat < 256 := hbytes c0 (by simp)
    have h1 : c1.toNat < 256 := hbytes c1 (by simp)
    have hh : c0 ≠ Char.ofNat 0 := hhead c0 (by simp)
    show asmInt.formatASCII _ = _
    rw [asmStr.toInt]
    simp only [List.length_cons, List.length_nil, maxbytes]
    norm_num
    rw [show List.range 2 = [0, 1] from rfl]
    simp only [List.foldl, List.getD, List.get?]
    rw [asmInt.formatASCII]
    rw [show List.range maxbytes = [0,1,2,3,4,5,6,7] from rfl]
    simp only [List.map, maxbytes]
    norm_num
    rw [show ((c1.toNat : Int) + (c0.toNat : Int) * 256) = ((c1.toNat + c0.toNat * 256 : Nat) : Int) by push_cast; ring]
    rw [formatByte_wrap _ 7 (by omega), formatByte_wrap _ 6 (by omega),
        formatByte_wrap _ 5 (by omega), formatByte_wrap _ 4 (by omega),
        formatByte_wrap _ 3 (by omega), formatByte_wrap _ 2 (by omega),
        formatByte_wrap _ 1 (by omega), formatByte_wrap _ 0 (by omega)]
    rw [show (c1.toNat + c0.toNat * 256) / 2 ^ (7 * 8) % 256 = 0 from by norm_num; omega,
        show (c1.toNat + c0.toNat * 256) / 2 ^ (6 * 8) % 256 = 0 from by norm_num; omega,
        show (c1.toNat + c0.toNat * 256) / 2 ^ (5 * 8) % 256 = 0 from by norm_num; omega,
        show (c1.toNat + c0.toNat * 256) / 2 ^ (4 * 8) % 256 = 0 from by norm_num; omega,
        show (c1.toNat + c0.toNat * 256) / 2 ^ (3 * 8) % 256 = 0 from by norm_num; omega,
        show (c1.toNat + c0.toNat * 256) / 2 ^ (2 * 8) % 256 = 0 from by norm_num; omega,
        show (c1.toNat + c0.toNat * 256) / 2 ^ (1 * 8) % 256 = c0.toNat from by norm_num; omega,
        show (c1.toNat + c0.toNat * 256) / 2 ^ (0 * 8) % 256 = c1.toNat from by norm_num; omega]
    rw [Char.ofNat_toNat, Char.ofNat_toNat]
    simp [List.dropWhile, hh]
  · refine ⟨rfl, ?_⟩
    have h0 : c0.toNat < 256 := hbytes c0 (by simp)
    have h1 : c1.toNat < 256 := hbytes c1 (by simp)
    have h2 : c2.toNat < 256 := hbytes c2 (by simp)
    have hh : c0 ≠ Char.ofNat 0 := hhead c0 (by simp)
    show asmInt.formatASCII _ = _
    rw [asmStr.toInt]
    simp only [List.length_cons, List.length_nil, maxbytes]
    norm_num
    rw [show List.range 3 = [0, 1, 2] from rfl]
    simp only [List.foldl, List.getD, List.get?]
    rw [asmInt.formatASCII]
    rw [show List.range maxbytes = [0,1,2,3,4,5,6,7] from rfl]
    simp only [List.map, maxbytes]
    norm_num
    rw [show ((c2.toNat : Int) + (c1.toNat : Int) * 256 + (c0.toNat : Int) * 65536) = ((c2.toNat + c1.toNat * 256 + c0.toNat * 65536 : Nat) : Int) by push_cast; ring]
    rw [formatByte_wrap _ 7 (by omega), formatByte_wrap _ 6 (by omega),
        formatByte_wrap _ 5 (by omega), formatByte_wrap _ 4 (by omega),
        formatByte_wrap _ 3 (by omega), formatByte_wrap _ 2 (by omega),
        formatByte_wrap _ 1 (by omega), formatByte_wrap _ 0 (by omega)]
    rw [show (c2.toNat + c1.toNat * 256 + c0.toNat * 65536) / 2 ^ (7 * 8) % 256 = 0 from by norm_num; omega,
        show (c2.toNat + c1.toNat * 256 + c0.toNat * 65536) / 2 ^ (6 * 8) % 256 = 0 from by norm_num; omega,
        show (c2.toNat + c1.toNat * 256 + c0.toNat * 65536) / 2 ^ (5 * 8) % 256 = 0 from by norm_num; omega,
        show (c2.toNat + c1.toNat * 256 + c0.toNat * 65536) / 2 ^ (4 * 8) % 256 = 0 from by norm_num; omega,
        show (c2.toNat + c1.toNat * 256 + c0.toNat * 65536) / 2 ^ (3 * 8) % 256 = 0 from by norm_num; omega,
        show (c2.toNat + c1.toNat * 256 + c0.toNat * 65536) / 2 ^ (2 * 8) % 256 = c0.toNat from by norm_num; omega,
        show (c2.toNat + c1.toNat * 256 + c0.toNat * 65536) / 2 ^ (1 * 8) % 256 = c1.toNat from by norm_num; omega,
        show (c2.toNat + c1.toNat * 256 + c0.toNat * 65536) / 2 ^ (0 * 8) % 256 = c2.toNat from by norm_num; omega]
    rw [Char.ofNat_toNat, Char.ofNat_toNat, Char.ofNat_toNat]
    simp [List.dropWhile, hh]
  · refine ⟨rfl, ?_⟩
    have h0 : c0.toNat < 256 := hbytes c0 (by simp)
    have h1 : c1.toNat < 256 := hbytes c1 (by simp)
    have h2 : c2.toNat < 256 := hbytes c2 (by simp)
    have h3 : c3.toNat < 256 := hbytes c3 (by simp)
    have hh : c0 ≠ Char.ofNat 0 := hhead c0 (by simp)
    show asmInt.formatASCII _ = _
    rw [asmStr.toInt]
    simp only [List.length_cons, List.length_nil, maxbytes]
    norm_num
    rw [show List.range 4 = [0, 1, 2, 3] from rfl]
    simp only [List.foldl, List.getD, List.get?]
    rw [asmInt.formatASCII]
    rw [show List.range maxbytes = [0,1,2,3,4,5,6,7] from rfl]
    simp only [List.map, maxbytes]
    norm_num
    rw [show ((c3.toNat : Int) + (c2.toNat : Int) * 256 + (c1.toNat : Int) * 65536 + (c0.toNat : Int) * 16777216) = ((c3.toNat + c2.toNat * 256 + c1.toNat * 65536 + c0.toNat * 16777216 : Nat) : Int) by push_cast; ring]
    rw [formatByte_wrap _ 7 (by omega), formatByte_wrap _ 6 (by omega),
        formatByte_wrap _ 5 (by omega), formatByte_wrap _ 4 (by omega),
        formatByte_wrap _ 3 (by omega), formatByte_wrap _ 2 (by omega),
        formatByte_wrap _ 1 (by omega), formatByte_wrap _ 0 (by omega)]
    rw [show (c3.toNat + c2.toNat * 256 + c1.toNat * 65536 + c0.toNat * 16777216) / 2 ^ (7 * 8) % 256 = 0 from by norm_num; omega,
        show (c3.toNat + c2.toNat * 256 + c1.toNat * 65536 + c0.toNat * 16777216) / 2 ^ (6 * 8) % 256 = 0 from by norm_num; omega,
        show (c3.toNat + c2.toNat * 256 + c1.toNat * 65536 + c0.toNat * 16777216) / 2 ^ (5 * 8) % 256 = 0 from by norm_num; omega,
        show (c3.toNat + c2.toNat * 256 + c1.toNat * 65536 + c0.toNat * 16777216) / 2 ^ (4 * 8) % 256 = 0 from by norm_num; omega,
        show (c3.toNat + c2.toNat * 256 + c1.toNat * 65536 + c0.toNat * 16777216) / 2 ^ (3 * 8) % 256 = c0.toNat from by norm_num; omega,
        show (c3.toNat + c2.toNat * 256 + c1.toNat * 65536 + c0.toNat * 16777216) / 2 ^ (2 * 8) % 256 = c1.toNat from by norm_num; omega,
        show (c3.toNat + c2.toNat * 256 + c1.toNat * 65536 + c0.toNat * 16777216) / 2 ^ (1 * 8) % 256 = c2.toNat from by norm_num; omega,
        show (c3.toNat + c2.toNat * 256 + c1.toNat * 65536 + c0.toNat * 16777216) / 2 ^ (0 * 8) % 256 = c3.toNat from by norm_num; omega]
    rw [Char.ofNat_toNat, Char.ofNat_toNat, Char.ofNat_toNat, Char.ofNat_toNat]
    simp [List.dropWhile, hh]
  · refine ⟨rfl, ?_⟩
    have h0 : c0.toNat < 256 := hbytes c0 (by simp)
    have h1 : c1.toNat < 256 := hbytes c1 (by simp)
    have h2 : c2.toNat < 256 := hbytes c2 (by simp)
    have h3 : c3.toNat < 256 := hbytes c3 (by simp)
    have h4 : c4.toNat < 256 := hbytes c4 (by simp)
    have hh : c0 ≠ Char.ofNat 0 := hhead c0 (by simp)
    show asmInt.formatASCII _ = _
    rw [asmStr.toInt]
    simp only [List.length_cons, List.length_nil, maxbytes]
    norm_num
    rw [show List.range 5 = [0, 1, 2, 3, 4] from rfl]
    simp only [List.foldl, List.getD, List.get?]
    rw [asmInt.formatASCII]
    rw [show List.range maxbytes = [0,1,2,3,4,5,6,7] from rfl]
    simp only [List.map, maxbytes]
    norm_num
    rw [show ((c4.toNat : Int) + (c3.toNat : Int) * 256 + (c2.toNat : Int) * 65536 + (c1.toNat : Int) * 16777216 + (c0.toNat : Int) * 4294967296) = ((c4.toNat + c3.toNat * 256 + c2.toNat * 65536 + c1.toNat * 16777216 + c0.toNat * 4294967296 : Nat) : Int) by push_cast; ring]
    rw [formatByte_wrap _ 7 (by omega), formatByte_wrap _ 6 (by omega),
        formatByte_wrap _ 5 (by omega), formatByte_wrap _ 4 (by omega),
        formatByte_wrap _ 3 (by omega), formatByte_wrap _ 2 (by omega),
        formatByte_wrap _ 1 (by omega), formatByte_wrap _ 0 (by omega)]
    rw [show (c4.toNat + c3.toNat * 256 + c2.toNat * 65536 + c1.toNat * 16777216 + c0.toNat * 4294967296) / 2 ^ (7 * 8) % 256 = 0 from by norm_num; omega,
        show (c4.toNat + c3.toNat * 256 + c2.toNat * 65536 + c1.toNat * 16777216 + c0.toNat * 4294967296) / 2 ^ (6 * 8) % 256 = 0 from by norm_num; omega,
        show (c4.toNat + c3.toNat * 256 + c2.toNat * 65536 + c1.toNat * 16777216 + c0.toNat * 4294967296) / 2 ^ (5 * 8) % 256 = 0 from by norm_num; omega,
        show (c4.toNat + c3.toNat * 256 + c2.toNat * 65536 + c1.toNat * 16777216 + c0.toNat * 4294967296) / 2 ^ (4 * 8) % 256 = c0.toNat from by norm_num; omega,
        show (c4.toNat + c3.toNat * 256 + c2.toNat * 65536 + c1.toNat * 16777216 + c0.toNat * 4294967296) / 2 ^ (3 * 8) % 256 = c1.toNat from by norm_num; omega,
        show (c4.toNat + c3.toNat * 256 + c2.toNat * 65536 + c1.toNat * 16777216 + c0.toNat * 4294967296) / 2 ^ (2 * 8) % 256 = c2.toNat from by norm_num; omega,
        show (c4.toNat + c3.toNat * 256 + c2.toNat * 65536 + c1.toNat * 16777216 + c0.toNat * 4294967296) / 2 ^ (1 * 8) % 256 = c3.toNat from by norm_num; omega,
        show (c4.toNat + c3.toNat * 256 + c2.toNat * 65536 + c1.toNat * 16777216 + c0.toNat * 4294967296) / 2 ^ (0 * 8) % 256 = c4.toNat from by norm_num; omega]
    rw [Char.ofNat_toNat, Char.ofNat_toNat, Char.ofNat_toNat, Char.ofNat_toNat, Char.ofNat_toNat]
    simp [List.dropWhile, hh]
  · refine ⟨rfl, ?_⟩
    have h0 : c0.toNat < 256 := hbytes c0 (by simp)
    have h1 : c1.toNat < 256 := hbytes c1 (by simp)
    have h2 : c2.toNat < 256 := hbytes c2 (by simp)
    have h3 : c3.toNat < 256 := hbytes c3 (by simp)
    have h4 : c4.toNat < 256 := hbytes c4 (by simp)
    have h5 : c5.toNat < 256 := hbytes c5 (by simp)
    have hh : c0 ≠ Char.ofNat 0 := hhead c0 (by simp)
    show asmInt.formatASCII _ = _
    rw [asmStr.toInt]
    simp only [List.length_cons, List.length_nil, maxbytes]
    norm_num
    rw [show List.range 6 = [0, 1, 2, 3, 4, 5] from rfl]
    simp only [List.foldl, List.getD, List.get?]
    rw [asmInt.formatASCII]
    rw [show List.range maxbytes = [0,1,2,3,4,5,6,7] from rfl]
    simp only [List.map, maxbytes]
    norm_num
    rw [show ((c5.toNat : Int) + (c4.toNat : Int) * 256 + (c3.toNat : Int) * 65536 + (c2.toNat : Int) * 16777216 + (c1.toNat : Int) * 4294967296 + (c0.toNat : Int) * 1099511627776) = ((c5.toNat + c4.toNat * 256 + c3.toNat * 65536 + c2.toNat * 16777216 + c1.toNat * 4294967296 + c0.toNat * 1099511627776 : Nat) : Int) by push_cast; ring]
    rw [formatByte_wrap _ 7 (by omega), formatByte_wrap _ 6 (by omega),
        formatByte_wrap _ 5 (by omega), formatByte_wrap _ 4 (by omega),
        formatByte_wrap _ 3 (by omega), formatByte_wrap _ 2 (by omega),
        formatByte_wrap _ 1 (by omega), formatByte_wrap _ 0 (by omega)]
    rw [show (c5.toNat + c4.toNat * 256 + c3.toNat * 65536 + c2.toNat * 16777216 + c1.toNat * 4294967296 + c0.toNat * 1099511627776) / 2 ^ (7 * 8) % 256 = 0 from by norm_num; omega,
        show (c5.toNat + c4.toNat * 256 + c3.toNat * 65536 + c2.toNat * 16777216 + c1.toNat * 4294967296 + c0.toNat * 1099511627776) / 2 ^ (6 * 8) % 256 = 0 from by norm_num; omega,
        show (c5.toNat + c4.toNat * 256 + c3.toNat * 65536 + c2.toNat * 16777216 + c1.toNat * 4294967296 + c0.toNat * 1099511627776) / 2 ^ (5 * 8) % 256 = c0.toNat from by norm_num; omega,
        show (c5.toNat + c4.toNat * 256 + c3.toNat * 65536 + c2.toNat * 16777216 + c1.toNat * 4294967296 + c0.toNat * 1099511627776) / 2 ^ (4 * 8) % 256 = c1.toNat from by norm_num; omega,
        show (c5.toNat + c4.toNat * 256 + c3.toNat * 65536 + c2.toNat * 16777216 + c1.toNat * 4294967296 + c0.toNat * 1099511627776) / 2 ^ (3 * 8) % 256 = c2.toNat from by norm_num; omega,
        show (c5.toNat + c4.toNat * 256 + c3.toNat * 65536 + c2.toNat * 16777216 + c1.toNat * 4294967296 + c0.toNat * 1099511627776) / 2 ^ (2 * 8) % 256 = c3.toNat from by norm_num; omega,
        show (c5.toNat + c4.toNat * 256 + c3.toNat * 65536 + c2.toNat * 16777216 + c1.toNat * 4294967296 + c0.toNat * 1099511627776) / 2 ^ (1 * 8) % 256 = c4.toNat from by norm_num; omega,
        show (c5.toNat + c4.toNat * 256 + c3.toNat * 65536 + c2.toNat * 16777216 + c1.toNat * 4294967296 + c0.toNat * 1099511627776) / 2 ^ (0 * 8) % 256 = c5.toNat from by norm_num; omega]
    rw [Char.ofNat_toNat, Char.ofNat_toNat, Char.ofNat_toNat, Char.ofNat_toNat, Char.ofNat_toNat, Char.ofNat_toNat]
    simp [List.dropWhile, hh]
  · refine ⟨rfl, ?_⟩
    have h0 : c0.toNat < 256 := hbytes c0 (by simp)
    have h1 : c1.toNat < 256 := hbytes c1 (by simp)
    have h2 : c2.toNat < 256 := hbytes c2 (by simp)
    have h3 : c3.toNat < 256 := hbytes c3 (by simp)
    have h4 : c4.toNat < 256 := hbytes c4 (by simp)
    have h5 : c5.toNat < 256 := hbytes c5 (by simp)
    have h6 : c6.toNat < 256 := hbytes c6 (by simp)
    have hh : c0 ≠ Char.ofNat 0 := hhead c0 (by simp)
    show asmInt.formatASCII _ = _
    rw [asmStr.toInt]
    simp only [List.length_cons, List.length_nil, maxbytes]
    norm_num
    rw [show List.range 7 = [0, 1, 2, 3, 4, 5, 6] from rfl]
    simp only [List.foldl, List.getD, List.get?]
    rw [asmInt.formatASCII]
    rw [show List.range maxbytes = [0,1,2,3,4,5,6,7] from rfl]
    simp only [List.map, maxbytes]
    norm_num
    rw [show ((c6.toNat : Int) + (c5.toNat : Int) * 256 + (c4.toNat : Int) * 65536 + (c3.toNat : Int) * 16777216 + (c2.toNat : Int) * 4294967296 + (c1.toNat : Int) * 1099511627776 + (c0.toNat : Int) * 281474976710656) = ((c6.toNat + c5.toNat * 256 + c4.toNat * 65536 + c3.toNat * 16777216 + c2.toNat * 4294967296 + c1.toNat * 1099511627776 + c0.toNat * 281474976710656 : Nat) : Int) by push_cast; ring]
    rw [formatByte_wrap _ 7 (by omega), formatByte_wrap _ 6 (by omega),
        formatByte_wrap _ 5 (by omega), formatByte_wrap _ 4 (by omega),
        formatByte_wrap _ 3 (by omega), formatByte_wrap _ 2 (by omega),
        formatByte_wrap _ 1 (by omega), formatByte_wrap _ 0 (by omega)]
    rw [show (c6.toNat + c5.toNat * 256 + c4.toNat * 65536 + c3.toNat * 16777216 + c2.toNat * 4294967296 + c1.toNat * 1099511627776 + c0.toNat * 281474976710656) / 2 ^ (7 * 8) % 256 = 0 from by norm_num; omega,
        show (c6.toNat + c5.toNat * 256 + c4.toNat * 65536 + c3.toNat * 16777216 + c2.toNat * 4294967296 + c1.toNat * 1099511627776 + c0.toNat * 281474976710656) / 2 ^ (6 * 8) % 256 = c0.toNat from by norm_num; omega,
        show (c6.toNat + c5.toNat * 256 + c4.toNat * 65536 + c3.toNat * 16777216 + c2.toNat * 4294967296 + c1.toNat * 1099511627776 + c0.toNat * 281474976710656) / 2 ^ (5 * 8) % 256 = c1.toNat from by norm_num; omega,
        show (c6.toNat + c5.toNat * 256 + c4.toNat * 65536 + c3.toNat * 16777216 + c2.toNat * 4294967296 + c1.toNat * 1099511627776 + c0.toNat * 281474976710656) / 2 ^ (4 * 8) % 256 = c2.toNat from by norm_num; omega,
        show (c6.toNat + c5.toNat * 256 + c4.toNat * 65536 + c3.toNat * 16777216 + c2.toNat * 4294967296 + c1.toNat * 1099511627776 + c0.toNat * 281474976710656) / 2 ^ (3 * 8) % 256 = c3.toNat from by norm_num; omega,
        show (c6.toNat + c5.toNat * 256 + c4.toNat * 65536 + c3.toNat * 16777216 + c2.toNat * 4294967296 + c1.toNat * 1099511627776 + c0.toNat * 281474976710656) / 2 ^ (2 * 8) % 256 = c4.toNat from by norm_num; omega,
        show (c6.toNat + c5.toNat * 256 + c4.toNat * 65536 + c3.toNat * 16777216 + c2.toNat * 4294967296 + c1.toNat * 1099511627776 + c0.toNat * 281474976710656) / 2 ^ (1 * 8) % 256 = c5.toNat from by norm_num; omega,
        show (c6.toNat + c5.toNat * 256 + c4.toNat * 65536 + c3.toNat * 16777216 + c2.toNat * 4294967296 + c1.toNat * 1099511627776 + c0.toNat * 281474976710656) / 2 ^ (0 * 8) % 256 = c6.toNat from by norm_num; omega]
    rw [Char.ofNat_toNat, Char.ofNat_toNat, Char.ofNat_toNat, Char.ofNat_toNat, Char.ofNat_toNat, Char.ofNat_toNat, Char.ofNat_toNat]
    simp [List.dropWhile, hh]
  · refine ⟨rfl, ?_⟩
    have h0 : c0.toNat < 256 := hbytes c0 (by simp)
    have h1 : c1.toNat < 256 := hbytes c1 (by simp)
    have h2 : c2.toNat < 256 := hbytes c2 (by simp)
    have h3 : c3.toNat < 256 := hbytes c3 (by simp)
    have h4 : c4.toNat < 256 := hbytes c4 (by simp)
    have h5 : c5.toNat < 256 := hbytes c5 (by simp)
    have h6 : c6.toNat < 256 := hbytes c6 (by simp)
    have h7 : c7.toNat < 256 := hbytes c7 (by simp)
    have hh : c0 ≠ Char.ofNat 0 := hhead c0 (by simp)
    show asmInt.formatASCII _ = _
    rw [asmStr.toInt]
    simp only [List.length_cons, List.length_nil, maxbytes]
    norm_num
    rw [show List.range 8 = [0, 1, 2, 3, 4, 5, 6, 7] from rfl]
    simp only [List.foldl, List.getD, List.get?]
    rw [asmInt.formatASCII]
    rw [show List.range maxbytes = [0,1,2,3,4,5,6,7] from rfl]
    simp only [List.map, maxbytes]
    norm_num
    rw [show ((c7.toNat : Int) + (c6.toNat : Int) * 256 + (c5.toNat : Int) * 65536 + (c4.toNat : Int) * 16777216 + (c3.toNat : Int) * 4294967296 + (c2.toNat : Int) * 1099511627776 + (c1.toNat : Int) * 281474976710656 + (c0.toNat : Int) * 72057594037927936) = ((c7.toNat + c6.toNat * 256 + c5.toNat * 65536 + c4.toNat * 16777216 + c3.toNat * 4294967296 + c2.toNat * 1099511627776 + c1.toNat * 281474976710656 + c0.toNat * 72057594037927936 : Nat) : Int) by push_cast; ring]
    rw [formatByte_wrap _ 7 (by omega), formatByte_wrap _ 6 (by omega),
        formatByte_wrap _ 5 (by omega), formatByte_wrap _ 4 (by omega),
        formatByte_wrap _ 3 (by omega), formatByte_wrap _ 2 (by omega),
        formatByte_wrap _ 1 (by omega), formatByte_wrap _ 0 (by omega)]
    rw [show (c7.toNat + c6.toNat * 256 + c5.toNat * 65536 + c4.toNat * 16777216 + c3.toNat * 4294967296 + c2.toNat * 1099511627776 + c1.toNat * 281474976710656 + c0.toNat * 72057594037927936) / 2 ^ (7 * 8) % 256 = c0.toNat from by norm_num; omega,
        show (c7.toNat + c6.toNat * 256 + c5.toNat * 65536 + c4.toNat * 16777216 + c3.toNat * 4294967296 + c2.toNat * 1099511627776 + c1.toNat * 281474976710656 + c0.toNat * 72057594037927936) / 2 ^ (6 * 8) % 256 = c1.toNat from by norm_num; omega,
        show (c7.toNat + c6.toNat * 256 + c5.toNat * 65536 + c4.toNat * 16777216 + c3.toNat * 4294967296 + c2.toNat * 1099511627776 + c1.toNat * 281474976710656 + c0.toNat * 72057594037927936) / 2 ^ (5 * 8) % 256 = c2.toNat from by norm_num; omega,
        show (c7.toNat + c6.toNat * 256 + c5.toNat * 65536 + c4.toNat * 16777216 + c3.toNat * 4294967296 + c2.toNat * 1099511627776 + c1.toNat * 281474976710656 + c0.toNat * 72057594037927936) / 2 ^ (4 * 8) % 256 = c3.toNat from by norm_num; omega,
        show (c7.toNat + c6.toNat * 256 + c5.toNat * 65536 + c4.toNat * 16777216 + c3.toNat * 4294967296 + c2.toNat * 1099511627776 + c1.toNat * 281474976710656 + c0.toNat * 72057594037927936) / 2 ^ (3 * 8) % 256 = c4.toNat from by norm_num; omega,
        show (c7.toNat + c6.toNat * 256 + c5.toNat * 65536 + c4.toNat * 16777216 + c3.toNat * 4294967296 + c2.toNat * 1099511627776 + c1.toNat * 281474976710656 + c0.toNat * 72057594037927936) / 2 ^ (2 * 8) % 256 = c5.toNat from by norm_num; omega,
        show (c7.toNat + c6.toNat * 256 + c5.toNat * 65536 + c4.toNat * 16777216 + c3.toNat * 4294967296 + c2.toNat * 1099511627776 + c1.toNat * 281474976710656 + c0.toNat * 72057594037927936) / 2 ^ (1 * 8) % 256 = c6.toNat from by norm_num; omega,
        show (c7.toNat + c6.toNat * 256 + c5.toNat * 65536 + c4.toNat * 16777216 + c3.toNat * 4294967296 + c2.toNat * 1099511627776 + c1.toNat * 281474976710656 + c0.toNat * 72057594037927936) / 2 ^ (0 * 8) % 256 = c7.toNat from by norm_num; omega]
    rw [Char.ofNat_toNat, Char.ofNat_toNat, Char.ofNat_toNat, Char.ofNat_toNat, Char.ofNat_toNat, Char.ofNat_toNat, Char.ofNat_toNat, Char.ofNat_toNat]
    simp [List.dropWhile, hh]
  · exfalso
    simp [List.length] at hlen

/-- C3 (witness): the two-byte string "AB" round-trips. -/
theorem C3_string_roundtrip_witness :
    (asmStr.toInt ['A', 'B']).2 = [] ∧
    (asmStr.toInt ['A', 'B']).1.formatASCII = ['A', 'B'] :=
  C3_string_roundtrip_amended ['A', 'B'] (by decide) (by decide) (by decide)
